import Mathlib

/-!
Verification development for the CARLA–SUMO co-simulation synchronizer
(`run_synchronization.py`).

The reconciler (`SimulationSynchronization.tick`), the teardown
(`SimulationSynchronization.close`) and the loop driver
(`synchronization_loop`) are embedded shallowly.  The two engine adapters
(`SumoSimulation`, `CarlaSimulation`) and the translation layer
(`BridgeHelper`) live in the `sumo_integration` package, which is not part
of this repository snapshot; following the specification they are treated
as an external capability surface: every call the reconciler makes into
them is a field of a per-tick environment record `TickEnv`.  Opaque
payloads (poses, extents, light bitmasks, blueprints, vehicle types,
colors, traffic-light phases) are represented by `Nat`; the reconciler
only ever passes them between collaborator calls, never inspects them.

Actor ids of both worlds are represented by `Int`, with the sentinel
`INVALID_ACTOR_ID = -1` (modelled from the spec: the constant is imported
from the missing `sumo_integration.constants` module; only its
distinguishability from real ids matters).

`self.sumo.get_actor` / `self.carla.get_actor` may fail on a stale id
(spec §4.1: "fails with NotFound if id is stale"); they are embedded as
`Except`-valued calls, and `tick` is an `Except` computation, because the
source contains no exception handler inside `tick`.
-/

namespace LimSimSync

/-- Actor ids of either world (`Int`, so the `-1` sentinel is representable). -/
abbrev ActorId := Int

/-- Opaque pose payload (`sumo_actor.transform` / `carla_actor.get_transform()`). -/
abbrev Pose := Nat

/-- Opaque bounding-extent payload. -/
abbrev Extent := Nat

/-- Opaque SUMO signal bitmask (`sumo_actor.signals`). -/
abbrev Signals := Nat

/-- Opaque vehicle light-state payload. -/
abbrev VehLights := Nat

/-- Opaque CARLA blueprint payload. -/
abbrev Blueprint := Nat

/-- Opaque SUMO vehicle-type payload. -/
abbrev VType := Nat

/-- Opaque vehicle color payload. -/
abbrev Color := Nat

/-- Opaque traffic-light phase payload. -/
abbrev TlState := Nat

/-- Opaque error payload for an exception escaping a collaborator call. -/
abbrev Err := Nat

/-- Modelled from the spec: the sentinel invalid actor id from the missing
`sumo_integration.constants` module ("returns a sentinel Invalid id (never
an exception) on failure"). -/
def INVALID_ACTOR_ID : ActorId := -1

/-- The view of one actor that `tick` reads through the adapters: pose,
extent, signal bitmask, current light state (`carla_actor.get_light_state()`)
and the optional color attribute (`carla_actor.attributes.get('color', None)`). -/
structure ActorView where
  pose : Pose
  extent : Extent
  signals : Signals
  light_state : VehLights
  color_attr : Option Color
deriving DecidableEq, Repr

/-- The per-run settings of `SimulationSynchronization.__init__`:
`tls_manager` is one of the strings `'none'`, `'sumo'`, `'carla'`. -/
structure SyncConfig where
  tls_manager : String
  sync_vehicle_color : Bool
  sync_vehicle_lights : Bool
deriving DecidableEq, Repr

/-- The mutable reconciler state: the two mapping tables
`self.sumo2carla_ids` and `self.carla2sumo_ids`, embedded as insertion-ordered
association lists (Python `dict` semantics). -/
structure SyncState where
  sumo2carla_ids : List (ActorId × ActorId)
  carla2sumo_ids : List (ActorId × ActorId)
deriving DecidableEq, Repr

/-- Everything one call to `tick` reads from or triggers in the two engine
adapters and the translation layer, as a deterministic per-tick environment.
Modelled from the spec: the `sumo_integration` adapters and `BridgeHelper`
are external collaborators ("treated as a pure function collaborator"),
so each call site becomes a function field.  The two `get_actor` calls are
fallible (stale references raise). -/
structure TickEnv where
  sumo_spawned_actors : List ActorId
  sumo_destroyed_actors : List ActorId
  sumo_get_actor : ActorId → Except Err ActorView
  sumo_traffic_light_ids : List ActorId
  sumo_get_tl_state : ActorId → TlState
  sumo_spawn_actor : VType → Option Color → ActorId
  carla_spawned_actors : List ActorId
  carla_destroyed_actors : List ActorId
  carla_get_actor : ActorId → Except Err ActorView
  carla_traffic_light_ids : List ActorId
  carla_get_tl_state : ActorId → TlState
  carla_get_actor_light_state : ActorId → Option VehLights
  carla_spawn_actor : Blueprint → Pose → ActorId
  get_carla_blueprint : ActorView → Bool → Option Blueprint
  get_carla_transform : Pose → Extent → Pose
  get_carla_lights_state : VehLights → Signals → VehLights
  get_sumo_vtype : ActorView → Option VType
  get_sumo_transform : Pose → Extent → Pose
  get_sumo_lights_state : Signals → VehLights → VehLights
  bridge_carla_tl_state : TlState → TlState
  bridge_sumo_tl_state : TlState → TlState

/-- `d.get(k)` on a Python dict embedded as an association list. -/
def alLookup : List (ActorId × ActorId) → ActorId → Option ActorId
  | [], _ => none
  | (k, v) :: rest, a => if k = a then some v else alLookup rest a

/-- `k in d` on a Python dict. -/
def alContains (m : List (ActorId × ActorId)) (a : ActorId) : Bool :=
  (alLookup m a).isSome

/-- `d[k] = v` on a Python dict: overwrite in place if present, else append. -/
def alInsert : List (ActorId × ActorId) → ActorId → ActorId → List (ActorId × ActorId)
  | [], k, v => [(k, v)]
  | (k', v') :: rest, k, v =>
    if k' = k then (k, v) :: rest else (k', v') :: alInsert rest k v

/-- `d.pop(k)` on a Python dict (the removal part; the returned value is
read separately with `alLookup`). -/
def alPop : List (ActorId × ActorId) → ActorId → List (ActorId × ActorId)
  | [], _ => []
  | (k', v') :: rest, k =>
    if k' = k then rest else (k', v') :: alPop rest k

/-- `d.values()` on a Python dict. -/
def alValues (m : List (ActorId × ActorId)) : List ActorId :=
  m.map Prod.snd

/-- `d.keys()` on a Python dict. -/
def alKeys (m : List (ActorId × ActorId)) : List ActorId :=
  m.map Prod.fst

/-- Result of the sumo→carla spawn-propagation loop: the updated
`sumo2carla_ids` table plus the emitted `sumo.subscribe`,
`sumo.unsubscribe` and `carla.spawn_actor` calls. -/
structure SumoSpawnRes where
  s2c : List (ActorId × ActorId)
  subs : List ActorId
  unsubs : List ActorId
  spawn_calls : List (Blueprint × Pose)
deriving DecidableEq, Repr

/-- Lines 135–149: `for sumo_actor_id in sumo_spawned_actors:` — subscribe,
fetch the actor, translate to a blueprint; on success spawn in CARLA and
record the pair unless the sentinel came back; on translation failure
unsubscribe. -/
def sumoSpawnLoop (cfg : SyncConfig) (env : TickEnv) :
    List ActorId → List (ActorId × ActorId) → Except Err SumoSpawnRes
  | [], m => .ok ⟨m, [], [], []⟩
  | a :: rest, m =>
    match env.sumo_get_actor a with
    | .error e => .error e
    | .ok actor =>
      match env.get_carla_blueprint actor cfg.sync_vehicle_color with
      | some bp =>
        let tf := env.get_carla_transform actor.pose actor.extent
        let cid := env.carla_spawn_actor bp tf
        let m2 := if cid = INVALID_ACTOR_ID then m else alInsert m a cid
        match sumoSpawnLoop cfg env rest m2 with
        | .error e => .error e
        | .ok r => .ok ⟨r.s2c, a :: r.subs, r.unsubs, (bp, tf) :: r.spawn_calls⟩
      | none =>
        match sumoSpawnLoop cfg env rest m with
        | .error e => .error e
        | .ok r => .ok ⟨r.s2c, a :: r.subs, a :: r.unsubs, r.spawn_calls⟩

/-- Lines 152–154 and 204–206 (the two destroy-propagation loops have
identical shape): for each reported destroyed id that is a key of the
table, pop it and emit a destroy call for the popped mirror id.  Returns
the updated table and the destroy calls issued to the other world. -/
def destroyLoop : List ActorId → List (ActorId × ActorId) →
    List (ActorId × ActorId) × List ActorId
  | [], m => (m, [])
  | a :: rest, m =>
    match alLookup m a with
    | some b =>
      let r := destroyLoop rest (alPop m a)
      (r.1, b :: r.2)
    | none => destroyLoop rest m

/-- Lines 157–173: for every pair in `sumo2carla_ids`, fetch both actors,
translate the pose, compute the lights argument (None when
`sync_vehicle_lights` is unset), and emit a `carla.synchronize_vehicle`
call `(carla id, transform, lights)`. -/
def sumoUpdateLoop (cfg : SyncConfig) (env : TickEnv) :
    List (ActorId × ActorId) → Except Err (List (ActorId × Pose × Option VehLights))
  | [] => .ok []
  | (sid, cid) :: rest =>
    match env.sumo_get_actor sid with
    | .error e => .error e
    | .ok sumo_actor =>
      match env.carla_get_actor cid with
      | .error e => .error e
      | .ok carla_actor =>
        let tf := env.get_carla_transform sumo_actor.pose sumo_actor.extent
        let lights := if cfg.sync_vehicle_lights then
            some (env.get_carla_lights_state carla_actor.light_state sumo_actor.signals)
          else none
        match sumoUpdateLoop cfg env rest with
        | .error e => .error e
        | .ok r => .ok ((cid, tf, lights) :: r)

/-- Lines 209–229: for every pair in `carla2sumo_ids`, fetch both actors,
translate the pose, compute the lights argument (None when
`sync_vehicle_lights` is unset, or when `get_actor_light_state` returns
None), and emit a `sumo.synchronize_vehicle` call. -/
def carlaUpdateLoop (cfg : SyncConfig) (env : TickEnv) :
    List (ActorId × ActorId) → Except Err (List (ActorId × Pose × Option VehLights))
  | [] => .ok []
  | (cid, sid) :: rest =>
    match env.carla_get_actor cid with
    | .error e => .error e
    | .ok carla_actor =>
      match env.sumo_get_actor sid with
      | .error e => .error e
      | .ok sumo_actor =>
        let tf := env.get_sumo_transform carla_actor.pose carla_actor.extent
        let lights := if cfg.sync_vehicle_lights then
            match env.carla_get_actor_light_state cid with
            | some cl => some (env.get_sumo_lights_state sumo_actor.signals cl)
            | none => none
          else none
        match carlaUpdateLoop cfg env rest with
        | .error e => .error e
        | .ok r => .ok ((sid, tf, lights) :: r)

/-- `self.sumo.traffic_light_ids & self.carla.traffic_light_ids`, computed
fresh on each use (lines 177 and 233). -/
def commonLandmarks (env : TickEnv) : List ActorId :=
  env.sumo_traffic_light_ids.filter (fun i => env.carla_traffic_light_ids.contains i)

/-- Lines 177–182: the `carla.synchronize_traffic_light` calls made when
`tls_manager == 'sumo'`. -/
def tlUpdatesToCarla (env : TickEnv) : List (ActorId × TlState) :=
  (commonLandmarks env).map
    (fun i => (i, env.bridge_carla_tl_state (env.sumo_get_tl_state i)))

/-- Lines 233–239: the `sumo.synchronize_traffic_light` calls made when
`tls_manager == 'carla'`. -/
def tlUpdatesToSumo (env : TickEnv) : List (ActorId × TlState) :=
  (commonLandmarks env).map
    (fun i => (i, env.bridge_sumo_tl_state (env.carla_get_tl_state i)))

/-- Line 134: `self.sumo.spawned_actors - set(self.carla2sumo_ids.values())`. -/
def sumoConsidered (env : TickEnv) (st : SyncState) : List ActorId :=
  env.sumo_spawned_actors.filter (fun a => !((alValues st.carla2sumo_ids).contains a))

/-- Line 190: `self.carla.spawned_actors - set(self.sumo2carla_ids.values())`
(evaluated mid-tick, after the sumo→carla half-pass has updated
`sumo2carla_ids`). -/
def carlaConsidered (env : TickEnv) (st : SyncState) : List ActorId :=
  env.carla_spawned_actors.filter (fun c => !((alValues st.sumo2carla_ids).contains c))

/-- The observable effects of the sumo→carla half-pass (lines 128–182). -/
structure SumoPassEff where
  sumo_subs : List ActorId
  sumo_unsubs : List ActorId
  carla_spawn_calls : List (Blueprint × Pose)
  carla_destroy_calls : List ActorId
  carla_vehicle_updates : List (ActorId × Pose × Option VehLights)
  tl_updates_to_carla : List (ActorId × TlState)
deriving DecidableEq, Repr

/-- The observable effects of the carla→sumo half-pass (lines 184–239). -/
structure CarlaPassEff where
  sumo_spawn_calls : List (VType × Option Color)
  new_mirror_subs : List ActorId
  sumo_destroy_calls : List ActorId
  sumo_vehicle_updates : List (ActorId × Pose × Option VehLights)
  tl_updates_to_sumo : List (ActorId × TlState)
deriving DecidableEq, Repr

/-- The sumo→carla half of `tick` (lines 128–182): spawn propagation over
the filtered spawned set, destroy propagation, unconditional state
propagation over the remaining pairs, and traffic-light propagation when
`tls_manager == 'sumo'`. -/
def sumoToCarlaPass (cfg : SyncConfig) (env : TickEnv) (st : SyncState) :
    Except Err (SyncState × SumoPassEff) :=
  match sumoSpawnLoop cfg env (sumoConsidered env st) st.sumo2carla_ids with
  | .error e => .error e
  | .ok rs =>
    let dres := destroyLoop env.sumo_destroyed_actors rs.s2c
    match sumoUpdateLoop cfg env dres.1 with
    | .error e => .error e
    | .ok ups =>
      .ok (⟨dres.1, st.carla2sumo_ids⟩,
        ⟨rs.subs, rs.unsubs, rs.spawn_calls, dres.2, ups,
          if cfg.tls_manager = "sumo" then tlUpdatesToCarla env else []⟩)

/-- Result of the carla→sumo spawn-propagation loop: the updated
`carla2sumo_ids` table, the `sumo.subscribe` calls for the new mirrors, and
the `sumo.spawn_actor` calls. -/
structure CarlaSpawnRes where
  c2s : List (ActorId × ActorId)
  mirror_subs : List ActorId
  spawn_calls : List (VType × Option Color)
deriving DecidableEq, Repr

/-- Lines 191–200: `for carla_actor_id in carla_spawned_actors:` — fetch the
actor, translate to a SUMO vtype (color only when `sync_vehicle_color`);
on success spawn in SUMO, and unless the sentinel came back record the pair
and subscribe the new mirror; on translation failure do nothing. -/
def carlaSpawnLoop (cfg : SyncConfig) (env : TickEnv) :
    List ActorId → List (ActorId × ActorId) → Except Err CarlaSpawnRes
  | [], m => .ok ⟨m, [], []⟩
  | c :: rest, m =>
    match env.carla_get_actor c with
    | .error e => .error e
    | .ok actor =>
      let color := if cfg.sync_vehicle_color then actor.color_attr else none
      match env.get_sumo_vtype actor with
      | some t =>
        let sid := env.sumo_spawn_actor t color
        let m2 := if sid = INVALID_ACTOR_ID then m else alInsert m c sid
        let newsubs := if sid = INVALID_ACTOR_ID then ([] : List ActorId) else [sid]
        match carlaSpawnLoop cfg env rest m2 with
        | .error e => .error e
        | .ok r => .ok ⟨r.c2s, newsubs ++ r.mirror_subs, (t, color) :: r.spawn_calls⟩
      | none =>
        match carlaSpawnLoop cfg env rest m with
        | .error e => .error e
        | .ok r => .ok ⟨r.c2s, r.mirror_subs, r.spawn_calls⟩

/-- The carla→sumo half of `tick` (lines 184–239), symmetric to
`sumoToCarlaPass`; traffic lights are propagated when
`tls_manager == 'carla'`. -/
def carlaToSumoPass (cfg : SyncConfig) (env : TickEnv) (st : SyncState) :
    Except Err (SyncState × CarlaPassEff) :=
  match carlaSpawnLoop cfg env (carlaConsidered env st) st.carla2sumo_ids with
  | .error e => .error e
  | .ok rs =>
    let dres := destroyLoop env.carla_destroyed_actors rs.c2s
    match carlaUpdateLoop cfg env dres.1 with
    | .error e => .error e
    | .ok ups =>
      .ok (⟨st.sumo2carla_ids, dres.1⟩,
        ⟨rs.spawn_calls, rs.mirror_subs, dres.2, ups,
          if cfg.tls_manager = "carla" then tlUpdatesToSumo env else []⟩)

/-- `SimulationSynchronization.tick` (lines 124–239): the sumo→carla
half-pass followed by the carla→sumo half-pass.  There is no exception
handler anywhere in `tick`, so an error from either half propagates. -/
def tick (cfg : SyncConfig) (env : TickEnv) (st : SyncState) :
    Except Err (SyncState × SumoPassEff × CarlaPassEff) :=
  match sumoToCarlaPass cfg env st with
  | .error e => .error e
  | .ok (st1, e1) =>
    match carlaToSumoPass cfg env st1 with
    | .error e => .error e
    | .ok (st2, e2) => .ok (st2, e1, e2)

/-- Several consecutive calls to `tick`, one environment per tick. -/
def runTicks (cfg : SyncConfig) : List TickEnv → SyncState → Except Err SyncState
  | [], st => .ok st
  | e :: rest, st =>
    match tick cfg e st with
    | .error err => .error err
    | .ok (st', _, _) => runTicks cfg rest st'

/-- The CARLA world settings `tick`/`close` toggle (lines 286–289): the two
fields the code touches plus an opaque remainder that `apply_settings`
carries through unchanged. -/
structure CarlaSettings where
  synchronous_mode : Bool
  fixed_delta_seconds : Option ℚ
  other_fields : Nat
deriving DecidableEq, Repr

/-- The observable effects of `SimulationSynchronization.close`. -/
structure CloseOut where
  applied_settings : CarlaSettings
  carla_destroy_calls : List ActorId
  sumo_destroy_calls : List ActorId
  carla_closed : Bool
  sumo_closed : Bool
deriving DecidableEq, Repr

/-- `SimulationSynchronization.close` (lines 281–300): switch the CARLA
world back to asynchronous free-running mode, destroy every mirror in both
directions (the values of the two tables), then close both adapters. -/
def close (current : CarlaSettings) (st : SyncState) : CloseOut :=
  { applied_settings :=
      { current with synchronous_mode := false, fixed_delta_seconds := none },
    carla_destroy_calls := alValues st.sumo2carla_ids,
    sumo_destroy_calls := alValues st.carla2sumo_ids,
    carla_closed := true,
    sumo_closed := true }

/-- How the `while` loop of `synchronization_loop` stopped: the loop
condition turned false (`finished`), `KeyboardInterrupt` was raised
(`cancelled`), or some other exception was raised (`errored`). -/
inductive LoopEnding
  | finished
  | cancelled
  | errored
deriving DecidableEq, Repr

/-- One abstract run of the `while` loop body (lines 337–360): `iters`
holds the measured elapsed wall time of each iteration that completed;
an iteration aborted mid-body by an exception contributes no entry. -/
structure LoopRun where
  iters : List ℚ
  ending : LoopEnding
deriving DecidableEq, Repr

/-- Observable driver events of `synchronization_loop`. -/
inductive LoopEvent
  | tickStep
  | sleepFor (d : ℚ)
  | logCancelled
  | logCleaning
  | closeCall
deriving DecidableEq, Repr

/-- Lines 355–358: the `time.sleep` calls made after an iteration whose
body took `elapsed` seconds (`if elapsed < args.step_length:
time.sleep(args.step_length - elapsed)`). -/
def sleepCalls (step_length elapsed : ℚ) : List ℚ :=
  if elapsed < step_length then [step_length - elapsed] else []

/-- The events of one completed loop iteration: the simulation step plus
the pacing sleep. -/
def iterEvents (step_length elapsed : ℚ) : List LoopEvent :=
  LoopEvent.tickStep :: (sleepCalls step_length elapsed).map LoopEvent.sleepFor

/-- The driver-event trace of `synchronization_loop` (lines 336–368):
the completed iterations of the `try` block, then — only when the loop was
stopped by `KeyboardInterrupt` — the `except` clause's log line, then the
`finally` clause: the cleanup log line and the single `close()` call.
`finally` runs on every exit path, so the trace always ends this way. -/
def loopTrace (step_length : ℚ) (run : LoopRun) : List LoopEvent :=
  (run.iters.foldr (fun e acc => iterEvents step_length e ++ acc) [])
  ++ (match run.ending with
      | .cancelled => [LoopEvent.logCancelled]
      | _ => [])
  ++ [LoopEvent.logCleaning, LoopEvent.closeCall]

/-- Equality of `Except` results is decidable when both components are. -/
instance exceptDecEq {E A : Type} [DecidableEq E] [DecidableEq A] :
    DecidableEq (Except E A) := fun x y =>
  match x, y with
  | .ok a, .ok b =>
    if h : a = b then .isTrue (by rw [h]) else .isFalse (fun hh => by cases hh; exact h rfl)
  | .error a, .error b =>
    if h : a = b then .isTrue (by rw [h]) else .isFalse (fun hh => by cases hh; exact h rfl)
  | .ok _, .error _ => .isFalse (fun hh => by cases hh)
  | .error _, .ok _ => .isFalse (fun hh => by cases hh)

/-- Concrete SUMO-side actor view used in the evaluation scenarios. -/
def actorS : ActorView := ⟨10, 2, 3, 4, some 6⟩

/-- Concrete CARLA-side actor view used in the evaluation scenarios. -/
def actorC : ActorView := ⟨20, 2, 3, 4, some 6⟩

/-- Concrete configuration: SUMO is the traffic-light authority, color sync
off, light sync on. -/
def cfgW : SyncConfig := ⟨"sumo", false, true⟩

/-- Concrete starting state: no SUMO-origin mirrors yet; CARLA actor 50
already has SUMO mirror 5. -/
def stW : SyncState := ⟨[], [(50, 5)]⟩

/-- Concrete tick environment: SUMO reports spawns `[1, 5]` (5 is itself a
mirror) and destruction of 3; CARLA reports spawn 40; all collaborator
calls succeed. -/
def envW : TickEnv where
  sumo_spawned_actors := [1, 5]
  sumo_destroyed_actors := [3]
  sumo_get_actor := fun _ => .ok actorS
  sumo_traffic_light_ids := [100, 101]
  sumo_get_tl_state := fun _ => 1
  sumo_spawn_actor := fun _ _ => 7
  carla_spawned_actors := [40]
  carla_destroyed_actors := []
  carla_get_actor := fun _ => .ok actorC
  carla_traffic_light_ids := [100]
  carla_get_tl_state := fun _ => 2
  carla_get_actor_light_state := fun _ => some 9
  carla_spawn_actor := fun _ _ => 21
  get_carla_blueprint := fun _ _ => some 11
  get_carla_transform := fun t e => t + e
  get_carla_lights_state := fun l s => l + s
  get_sumo_vtype := fun _ => some 12
  get_sumo_transform := fun t e => t + e
  get_sumo_lights_state := fun s l => s + l
  bridge_carla_tl_state := fun s => s + 1
  bridge_sumo_tl_state := fun s => s + 1

/-- Variant environment in which both engines reject every spawn with the
sentinel id. -/
def envInvalidSpawn : TickEnv :=
  { envW with carla_spawn_actor := fun _ _ => -1, sumo_spawn_actor := fun _ _ => -1 }

/-- Variant environment in which `sumo.get_actor` raises a stale-reference
error for actor 1 while a second fresh actor 2 is also waiting to be
processed. -/
def envStale : TickEnv :=
  { envW with
    sumo_spawned_actors := [1, 2],
    sumo_get_actor := fun a => if a = 1 then .error 7 else .ok actorS }

/-- Variant environment in which the translator finds no equivalent type in
either direction. -/
def envNoType : TickEnv :=
  { envW with
    get_carla_blueprint := fun _ _ => none,
    get_sumo_vtype := fun _ => none }

/-- Variant environment in which SUMO actor 1 is reported both spawned and
destroyed within the same tick. -/
def envSpawnDestroy : TickEnv :=
  { envW with sumo_spawned_actors := [1], sumo_destroyed_actors := [1] }

/-! ### Association-list (Python dict) lemmas -/

theorem mem_alKeys {m : List (ActorId × ActorId)} {a : ActorId} :
    a ∈ alKeys m ↔ alContains m a = true := by
  induction m with
  | nil => simp [alKeys, alContains, alLookup]
  | cons p rest ih =>
    obtain ⟨k, v⟩ := p
    by_cases hk : k = a
    · subst hk
      simp [alKeys, alContains, alLookup]
    · simp only [alKeys, List.map_cons, List.mem_cons, alContains, alLookup,
        if_neg hk] at ih ⊢
      constructor
      · rintro (h1 | h1)
        · exact absurd h1.symm hk
        · exact ih.mp h1
      · intro h1
        exact Or.inr (ih.mpr h1)

theorem alLookup_eq_none {m : List (ActorId × ActorId)} {a : ActorId} :
    alLookup m a = none ↔ a ∉ alKeys m := by
  rw [mem_alKeys]
  cases h : alLookup m a <;> simp [alContains, h]

theorem alContains_eq_false {m : List (ActorId × ActorId)} {a : ActorId} :
    alContains m a = false ↔ alLookup m a = none := by
  unfold alContains
  cases alLookup m a <;> simp

theorem alLookup_insert_self (m : List (ActorId × ActorId)) (k v : ActorId) :
    alLookup (alInsert m k v) k = some v := by
  induction m with
  | nil => simp [alInsert, alLookup]
  | cons p rest ih =>
    obtain ⟨k', v'⟩ := p
    by_cases h : k' = k
    · subst h
      simp [alInsert, alLookup]
    · simp [alInsert, alLookup, h, ih]

theorem alLookup_insert_ne (m : List (ActorId × ActorId)) {a k : ActorId}
    (h : a ≠ k) (v : ActorId) :
    alLookup (alInsert m k v) a = alLookup m a := by
  induction m with
  | nil => simp [alInsert, alLookup, Ne.symm h]
  | cons p rest ih =>
    obtain ⟨k', v'⟩ := p
    by_cases hk : k' = k
    · subst hk
      simp [alInsert, alLookup, Ne.symm h]
    · by_cases ha : k' = a
      · subst ha
        simp [alInsert, alLookup, hk]
      · simp [alInsert, alLookup, hk, ha, ih]

theorem alLookup_pop_ne (m : List (ActorId × ActorId)) {a k : ActorId} (h : a ≠ k) :
    alLookup (alPop m k) a = alLookup m a := by
  induction m with
  | nil => simp [alPop]
  | cons p rest ih =>
    obtain ⟨k', v'⟩ := p
    by_cases hk : k' = k
    · subst hk
      simp [alPop, alLookup, Ne.symm h]
    · simp [alPop, alLookup, hk, ih]

theorem alPop_sublist (m : List (ActorId × ActorId)) (k : ActorId) :
    List.Sublist (alPop m k) m := by
  induction m with
  | nil => simp [alPop]
  | cons p rest ih =>
    obtain ⟨k', v'⟩ := p
    by_cases h : k' = k
    · simp only [alPop, if_pos h]
      exact List.Sublist.cons _ (List.Sublist.refl _)
    · simp only [alPop, if_neg h]
      exact List.Sublist.cons₂ _ ih

theorem alContains_of_sublist {m' m : List (ActorId × ActorId)} (h : List.Sublist m' m)
    {a : ActorId} (hc : alContains m' a = true) : alContains m a = true := by
  rw [← mem_alKeys] at hc ⊢
  exact (h.map Prod.fst).subset hc

theorem alLookup_pop_self {m : List (ActorId × ActorId)}
    (h : (alKeys m).Nodup) (k : ActorId) :
    alLookup (alPop m k) k = none := by
  induction m with
  | nil => simp [alPop, alLookup]
  | cons p rest ih =>
    obtain ⟨k', v'⟩ := p
    rw [alKeys, List.map_cons, List.nodup_cons] at h
    by_cases hk : k' = k
    · subst hk
      simp only [alPop, if_pos rfl]
      exact alLookup_eq_none.mpr h.1
    · simp only [alPop, if_neg hk, alLookup, if_neg hk]
      exact ih h.2

theorem mem_alKeys_insert {m : List (ActorId × ActorId)} {k v a : ActorId}
    (h : a ∈ alKeys (alInsert m k v)) : a = k ∨ a ∈ alKeys m := by
  by_cases hak : a = k
  · exact Or.inl hak
  · right
    rw [mem_alKeys] at h ⊢
    rwa [alContains, alLookup_insert_ne m hak v] at h

theorem alContains_insert {m : List (ActorId × ActorId)} {k v a : ActorId}
    (h : alContains (alInsert m k v) a = true) :
    a = k ∨ alContains m a = true := by
  rcases mem_alKeys_insert (mem_alKeys.mpr h) with h1 | h1
  · exact Or.inl h1
  · exact Or.inr (mem_alKeys.mp h1)

theorem alKeys_insert_nodup {m : List (ActorId × ActorId)}
    (h : (alKeys m).Nodup) (k v : ActorId) :
    (alKeys (alInsert m k v)).Nodup := by
  induction m with
  | nil => simp [alInsert, alKeys]
  | cons p rest ih =>
    obtain ⟨k', v'⟩ := p
    rw [alKeys, List.map_cons, List.nodup_cons] at h
    by_cases hk : k' = k
    · subst hk
      simpa [alInsert, alKeys, List.nodup_cons] using h
    · simp only [alInsert, if_neg hk, alKeys, List.map_cons, List.nodup_cons]
      refine ⟨fun hmem => ?_, ih h.2⟩
      rcases mem_alKeys_insert hmem with h1 | h1
      · exact hk h1
      · exact h.1 h1

theorem alPop_keys_nodup {m : List (ActorId × ActorId)}
    (h : (alKeys m).Nodup) (k : ActorId) :
    (alKeys (alPop m k)).Nodup :=
  h.sublist ((alPop_sublist m k).map Prod.fst)

/-! ### Destroy-propagation loop lemmas -/

theorem destroyLoop_fst_sublist (dl : List ActorId) (m : List (ActorId × ActorId)) :
    List.Sublist (destroyLoop dl m).1 m := by
  induction dl generalizing m with
  | nil => exact List.Sublist.refl _
  | cons a rest ih =>
    cases h : alLookup m a with
    | some b =>
      simp only [destroyLoop, h]
      exact (ih (alPop m a)).trans (alPop_sublist m a)
    | none =>
      simp only [destroyLoop, h]
      exact ih m

theorem destroyLoop_keys_nodup {dl : List ActorId} {m : List (ActorId × ActorId)}
    (h : (alKeys m).Nodup) : (alKeys (destroyLoop dl m).1).Nodup :=
  h.sublist ((destroyLoop_fst_sublist dl m).map Prod.fst)

theorem destroyLoop_contains_false {dl : List ActorId} {m : List (ActorId × ActorId)}
    {a : ActorId} (h : alContains m a = false) :
    alContains (destroyLoop dl m).1 a = false := by
  cases hcc : alContains (destroyLoop dl m).1 a
  · rfl
  · exact absurd (alContains_of_sublist (destroyLoop_fst_sublist dl m) hcc) (by simp [h])

theorem destroyLoop_removes {dl : List ActorId} {m : List (ActorId × ActorId)}
    {a : ActorId} (hmem : a ∈ dl) (hnd : (alKeys m).Nodup) :
    alContains (destroyLoop dl m).1 a = false := by
  induction dl generalizing m with
  | nil => cases hmem
  | cons x rest ih =>
    by_cases hxa : x = a
    · subst hxa
      cases h : alLookup m x with
      | some b =>
        simp only [destroyLoop, h]
        exact destroyLoop_contains_false
          (by simp [alContains, alLookup_pop_self hnd x])
      | none =>
        simp only [destroyLoop, h]
        exact destroyLoop_contains_false (by simp [alContains, h])
    · have h1 : a ∈ rest := by
        rcases List.mem_cons.mp hmem with h1 | h1
        · exact absurd h1.symm hxa
        · exact h1
      cases h : alLookup m x with
      | some b =>
        simp only [destroyLoop, h]
        exact ih h1 (alPop_keys_nodup hnd x)
      | none =>
        simp only [destroyLoop, h]
        exact ih h1 hnd

theorem destroyLoop_calls {dl : List ActorId} {m : List (ActorId × ActorId)}
    {a b : ActorId} (hmem : a ∈ dl) (hl : alLookup m a = some b) :
    b ∈ (destroyLoop dl m).2 := by
  induction dl generalizing m with
  | nil => cases hmem
  | cons x rest ih =>
    by_cases hxa : x = a
    · subst hxa
      simp only [destroyLoop, hl]
      exact List.mem_cons_self _ _
    · have h1 : a ∈ rest := by
        rcases List.mem_cons.mp hmem with h1 | h1
        · exact absurd h1.symm hxa
        · exact h1
      cases h : alLookup m x with
      | some c =>
        simp only [destroyLoop, h]
        exact List.mem_cons_of_mem _
          (ih h1 (by rw [alLookup_pop_ne m (Ne.symm hxa)]; exact hl))
      | none =>
        simp only [destroyLoop, h]
        exact ih h1 hl

theorem destroyLoop_noop {m : List (ActorId × ActorId)} {a : ActorId}
    (h : alContains m a = false) (rest : List ActorId) :
    destroyLoop (a :: rest) m = destroyLoop rest m := by
  simp only [destroyLoop, alContains_eq_false.mp h]

theorem destroyLoop_all_noop {dl : List ActorId} {m : List (ActorId × ActorId)}
    (h : ∀ x ∈ dl, alContains m x = false) :
    destroyLoop dl m = (m, []) := by
  induction dl with
  | nil => rfl
  | cons x rest ih =>
    rw [destroyLoop_noop (h x (List.mem_cons_self x rest)) rest]
    exact ih fun y hy => h y (List.mem_cons_of_mem _ hy)

/-! ### Sumo→carla spawn-propagation loop lemmas -/

theorem sumoSpawnLoop_subs {cfg : SyncConfig} {env : TickEnv} {l : List ActorId} :
    ∀ {m r}, sumoSpawnLoop cfg env l m = .ok r → r.subs = l := by
  induction l with
  | nil =>
    intro m r h
    simp only [sumoSpawnLoop] at h
    cases h
    rfl
  | cons a rest ih =>
    intro m r h
    simp only [sumoSpawnLoop] at h
    split at h
    · cases h
    · split at h
      · split at h
        · cases h
        · rename_i r' hrec
          cases h
          simp [ih hrec]
      · split at h
        · cases h
        · rename_i r' hrec
          cases h
          simp [ih hrec]

theorem sumoSpawnLoop_lookup_not_mem {cfg : SyncConfig} {env : TickEnv}
    {a : ActorId} {l : List ActorId} (hnm : a ∉ l) :
    ∀ {m r}, sumoSpawnLoop cfg env l m = .ok r → alLookup r.s2c a = alLookup m a := by
  induction l with
  | nil =>
    intro m r h
    simp only [sumoSpawnLoop] at h
    cases h
    rfl
  | cons x rest ih =>
    intro m r h
    have hax : a ≠ x := fun he => hnm (he ▸ List.mem_cons_self x rest)
    have harest : a ∉ rest := fun hr => hnm (List.mem_cons_of_mem _ hr)
    simp only [sumoSpawnLoop] at h
    split at h
    · cases h
    · split at h
      · split at h
        · cases h
        · rename_i r' hrec
          cases h
          show alLookup r'.s2c a = alLookup m a
          rw [ih harest hrec]
          split
          · rfl
          · exact alLookup_insert_ne m hax _
      · split at h
        · cases h
        · rename_i r' hrec
          cases h
          show alLookup r'.s2c a = alLookup m a
          exact ih harest hrec

theorem sumoSpawnLoop_contains {cfg : SyncConfig} {env : TickEnv}
    {a : ActorId} {l : List ActorId} :
    ∀ {m r}, sumoSpawnLoop cfg env l m = .ok r →
      alContains r.s2c a = true → a ∈ l ∨ alContains m a = true := by
  induction l with
  | nil =>
    intro m r h hc
    simp only [sumoSpawnLoop] at h
    cases h
    exact Or.inr hc
  | cons x rest ih =>
    intro m r h hc
    simp only [sumoSpawnLoop] at h
    split at h
    · cases h
    · split at h
      · split at h
        · cases h
        · rename_i r' hrec
          cases h
          have hc' : alContains r'.s2c a = true := hc
          rcases ih hrec hc' with h1 | h1
          · exact Or.inl (List.mem_cons_of_mem _ h1)
          · revert h1
            split
            · exact fun h1 => Or.inr h1
            · intro h1
              rcases alContains_insert h1 with h2 | h2
              · exact Or.inl (h2 ▸ List.mem_cons_self x rest)
              · exact Or.inr h2
      · split at h
        · cases h
        · rename_i r' hrec
          cases h
          have hc' : alContains r'.s2c a = true := hc
          rcases ih hrec hc' with h1 | h1
          · exact Or.inl (List.mem_cons_of_mem _ h1)
          · exact Or.inr h1

theorem sumoSpawnLoop_keys_nodup {cfg : SyncConfig} {env : TickEnv} {l : List ActorId} :
    ∀ {m r}, sumoSpawnLoop cfg env l m = .ok r →
      (alKeys m).Nodup → (alKeys r.s2c).Nodup := by
  induction l with
  | nil =>
    intro m r h hnd
    simp only [sumoSpawnLoop] at h
    cases h
    exact hnd
  | cons x rest ih =>
    intro m r h hnd
    simp only [sumoSpawnLoop] at h
    split at h
    · cases h
    · split at h
      · split at h
        · cases h
        · rename_i r' hrec
          cases h
          show (alKeys r'.s2c).Nodup
          refine ih hrec ?_
          split
          · exact hnd
          · exact alKeys_insert_nodup hnd _ _
      · split at h
        · cases h
        · rename_i r' hrec
          cases h
          show (alKeys r'.s2c).Nodup
          exact ih hrec hnd

theorem sumoSpawnLoop_lookup_spawned {cfg : SyncConfig} {env : TickEnv}
    {a : ActorId} {actor : ActorView} {bp : Blueprint}
    (hga : env.sumo_get_actor a = .ok actor)
    (hbp : env.get_carla_blueprint actor cfg.sync_vehicle_color = some bp)
    (hinv : ¬ env.carla_spawn_actor bp (env.get_carla_transform actor.pose actor.extent)
      = INVALID_ACTOR_ID) :
    ∀ {l : List ActorId} {m r}, l.Nodup → a ∈ l → sumoSpawnLoop cfg env l m = .ok r →
      alLookup r.s2c a =
        some (env.carla_spawn_actor bp (env.get_carla_transform actor.pose actor.extent)) := by
  intro l
  induction l with
  | nil => intro m r _ hmem; cases hmem
  | cons x rest ih =>
    intro m r hnd hmem h
    by_cases hxa : x = a
    · subst hxa
      simp only [sumoSpawnLoop, hga, hbp, if_neg hinv] at h
      split at h
      · cases h
      · rename_i r' hrec
        cases h
        show alLookup r'.s2c x = _
        rw [sumoSpawnLoop_lookup_not_mem (List.nodup_cons.mp hnd).1 hrec]
        exact alLookup_insert_self m x _
    · have h1 : a ∈ rest := by
        rcases List.mem_cons.mp hmem with h1 | h1
        · exact absurd h1.symm hxa
        · exact h1
      simp only [sumoSpawnLoop] at h
      split at h
      · cases h
      · split at h
        · split at h
          · cases h
          · rename_i r' hrec
            cases h
            show alLookup r'.s2c a = _
            exact ih (List.nodup_cons.mp hnd).2 h1 hrec
        · split at h
          · cases h
          · rename_i r' hrec
            cases h
            show alLookup r'.s2c a = _
            exact ih (List.nodup_cons.mp hnd).2 h1 hrec

theorem sumoSpawnLoop_unsub {cfg : SyncConfig} {env : TickEnv}
    {a : ActorId} {actor : ActorView}
    (hga : env.sumo_get_actor a = .ok actor)
    (hbp : env.get_carla_blueprint actor cfg.sync_vehicle_color = none) :
    ∀ {l : List ActorId} {m r}, a ∈ l → sumoSpawnLoop cfg env l m = .ok r →
      a ∈ r.unsubs := by
  intro l
  induction l with
  | nil => intro m r hmem; cases hmem
  | cons x rest ih =>
    intro m r hmem h
    by_cases hxa : x = a
    · subst hxa
      simp only [sumoSpawnLoop, hga, hbp] at h
      split at h
      · cases h
      · rename_i r' hrec
        cases h
        exact List.mem_cons_self _ _
    · have h1 : a ∈ rest := by
        rcases List.mem_cons.mp hmem with h1 | h1
        · exact absurd h1.symm hxa
        · exact h1
      simp only [sumoSpawnLoop] at h
      split at h
      · cases h
      · split at h
        · split at h
          · cases h
          · rename_i r' hrec
            cases h
            show a ∈ r'.unsubs
            exact ih h1 hrec
        · split at h
          · cases h
          · rename_i r' hrec
            cases h
            show a ∈ x :: r'.unsubs
            exact List.mem_cons_of_mem _ (ih h1 hrec)

theorem sumoSpawnLoop_spawncall {cfg : SyncConfig} {env : TickEnv}
    {a : ActorId} {actor : ActorView} {bp : Blueprint}
    (hga : env.sumo_get_actor a = .ok actor)
    (hbp : env.get_carla_blueprint actor cfg.sync_vehicle_color = some bp) :
    ∀ {l : List ActorId} {m r}, a ∈ l → sumoSpawnLoop cfg env l m = .ok r →
      (bp, env.get_carla_transform actor.pose actor.extent) ∈ r.spawn_calls := by
  intro l
  induction l with
  | nil => intro m r hmem; cases hmem
  | cons x rest ih =>
    intro m r hmem h
    by_cases hxa : x = a
    · subst hxa
      simp only [sumoSpawnLoop, hga, hbp] at h
      split at h
      · cases h
      · rename_i r' hrec
        cases h
        exact List.mem_cons_self _ _
    · have h1 : a ∈ rest := by
        rcases List.mem_cons.mp hmem with h1 | h1
        · exact absurd h1.symm hxa
        · exact h1
      simp only [sumoSpawnLoop] at h
      split at h
      · cases h
      · rename_i actor2 hga2
        split at h
        · rename_i bp2 hbp2
          split at h
          · cases h
          · rename_i r' hrec
            cases h
            show (bp, env.get_carla_transform actor.pose actor.extent)
              ∈ (bp2, env.get_carla_transform actor2.pose actor2.extent) :: r'.spawn_calls
            exact List.mem_cons_of_mem _ (ih h1 hrec)
        · split at h
          · cases h
          · rename_i r' hrec
            cases h
            show (bp, env.get_carla_transform actor.pose actor.extent) ∈ r'.spawn_calls
            exact ih h1 hrec

theorem sumoSpawnLoop_lookup_never_bp {cfg : SyncConfig} {env : TickEnv} {a : ActorId}
    (hnone : ∀ actor, env.sumo_get_actor a = .ok actor →
      env.get_carla_blueprint actor cfg.sync_vehicle_color = none) :
    ∀ {l : List ActorId} {m r}, sumoSpawnLoop cfg env l m = .ok r →
      alLookup r.s2c a = alLookup m a := by
  intro l
  induction l with
  | nil =>
    intro m r h
    simp only [sumoSpawnLoop] at h
    cases h
    rfl
  | cons x rest ih =>
    intro m r h
    simp only [sumoSpawnLoop] at h
    split at h
    · cases h
    · rename_i actor hga
      split at h
      · rename_i bp hbp
        split at h
        · cases h
        · rename_i r' hrec
          cases h
          show alLookup r'.s2c a = alLookup m a
          by_cases hxa : x = a
          · subst hxa
            rw [hnone actor hga] at hbp
            cases hbp
          · rw [ih hrec]
            split
            · rfl
            · exact alLookup_insert_ne m (Ne.symm hxa) _
      · split at h
        · cases h
        · rename_i r' hrec
          cases h
          show alLookup r'.s2c a = alLookup m a
          exact ih hrec

theorem sumoSpawnLoop_invalid_cons {cfg : SyncConfig} {env : TickEnv}
    {a : ActorId} {actor : ActorView} {bp : Blueprint}
    (hga : env.sumo_get_actor a = .ok actor)
    (hbp : env.get_carla_blueprint actor cfg.sync_vehicle_color = some bp)
    (hinv : env.carla_spawn_actor bp (env.get_carla_transform actor.pose actor.extent)
      = INVALID_ACTOR_ID) (l : List ActorId) (m : List (ActorId × ActorId)) :
    sumoSpawnLoop cfg env (a :: l) m =
      Except.map (fun r => ⟨r.s2c, a :: r.subs, r.unsubs,
          (bp, env.get_carla_transform actor.pose actor.extent) :: r.spawn_calls⟩)
        (sumoSpawnLoop cfg env l m) := by
  simp only [sumoSpawnLoop, hga, hbp, hinv, if_pos]
  cases hrec : sumoSpawnLoop cfg env l m <;> simp [Except.map]

/-! ### Carla→sumo spawn-propagation loop lemmas -/

theorem alLookup_ite_insert_ne {m : List (ActorId × ActorId)} {k v a : ActorId}
    {cond : Prop} [Decidable cond] (h : a ≠ k) :
    alLookup (if cond then m else alInsert m k v) a = alLookup m a := by
  split
  · rfl
  · exact alLookup_insert_ne m h v

theorem alContains_ite_insert {m : List (ActorId × ActorId)} {k v a : ActorId}
    {cond : Prop} [Decidable cond]
    (h : alContains (if cond then m else alInsert m k v) a = true) :
    a = k ∨ alContains m a = true := by
  revert h
  split
  · exact fun h => Or.inr h
  · exact fun h => alContains_insert h

theorem alKeys_ite_insert_nodup {m : List (ActorId × ActorId)} {k v : ActorId}
    {cond : Prop} [Decidable cond] (h : (alKeys m).Nodup) :
    (alKeys (if cond then m else alInsert m k v)).Nodup := by
  split
  · exact h
  · exact alKeys_insert_nodup h _ _

theorem carlaSpawnLoop_lookup_not_mem {cfg : SyncConfig} {env : TickEnv}
    {c : ActorId} {l : List ActorId} (hnm : c ∉ l) :
    ∀ {m r}, carlaSpawnLoop cfg env l m = .ok r → alLookup r.c2s c = alLookup m c := by
  induction l with
  | nil =>
    intro m r h
    simp only [carlaSpawnLoop] at h
    cases h
    rfl
  | cons x rest ih =>
    intro m r h
    have hcx : c ≠ x := fun he => hnm (he ▸ List.mem_cons_self x rest)
    have hcrest : c ∉ rest := fun hr => hnm (List.mem_cons_of_mem _ hr)
    simp only [carlaSpawnLoop] at h
    split at h
    · cases h
    · split at h
      · split at h
        · cases h
        · rename_i r' hrec
          cases h
          show alLookup r'.c2s c = alLookup m c
          rw [ih hcrest hrec]
          exact alLookup_ite_insert_ne hcx
      · split at h
        · cases h
        · rename_i r' hrec
          cases h
          show alLookup r'.c2s c = alLookup m c
          exact ih hcrest hrec

theorem carlaSpawnLoop_contains {cfg : SyncConfig} {env : TickEnv}
    {c : ActorId} {l : List ActorId} :
    ∀ {m r}, carlaSpawnLoop cfg env l m = .ok r →
      alContains r.c2s c = true → c ∈ l ∨ alContains m c = true := by
  induction l with
  | nil =>
    intro m r h hc
    simp only [carlaSpawnLoop] at h
    cases h
    exact Or.inr hc
  | cons x rest ih =>
    intro m r h hc
    simp only [carlaSpawnLoop] at h
    split at h
    · cases h
    · split at h
      · split at h
        · cases h
        · rename_i r' hrec
          cases h
          have hc' : alContains r'.c2s c = true := hc
          rcases ih hrec hc' with h1 | h1
          · exact Or.inl (List.mem_cons_of_mem _ h1)
          · rcases alContains_ite_insert h1 with h2 | h2
            · exact Or.inl (h2 ▸ List.mem_cons_self x rest)
            · exact Or.inr h2
      · split at h
        · cases h
        · rename_i r' hrec
          cases h
          have hc' : alContains r'.c2s c = true := hc
          rcases ih hrec hc' with h1 | h1
          · exact Or.inl (List.mem_cons_of_mem _ h1)
          · exact Or.inr h1

theorem carlaSpawnLoop_keys_nodup {cfg : SyncConfig} {env : TickEnv} {l : List ActorId} :
    ∀ {m r}, carlaSpawnLoop cfg env l m = .ok r →
      (alKeys m).Nodup → (alKeys r.c2s).Nodup := by
  induction l with
  | nil =>
    intro m r h hnd
    simp only [carlaSpawnLoop] at h
    cases h
    exact hnd
  | cons x rest ih =>
    intro m r h hnd
    simp only [carlaSpawnLoop] at h
    split at h
    · cases h
    · split at h
      · split at h
        · cases h
        · rename_i r' hrec
          cases h
          show (alKeys r'.c2s).Nodup
          refine ih hrec ?_
          exact alKeys_ite_insert_nodup hnd
      · split at h
        · cases h
        · rename_i r' hrec
          cases h
          show (alKeys r'.c2s).Nodup
          exact ih hrec hnd

theorem carlaSpawnLoop_lookup_spawned {cfg : SyncConfig} {env : TickEnv}
    {c : ActorId} {actor : ActorView} {t : VType}
    (hga : env.carla_get_actor c = .ok actor)
    (hvt : env.get_sumo_vtype actor = some t)
    (hinv : ¬ env.sumo_spawn_actor t
        (if cfg.sync_vehicle_color then actor.color_attr else none) = INVALID_ACTOR_ID) :
    ∀ {l : List ActorId} {m r}, l.Nodup → c ∈ l → carlaSpawnLoop cfg env l m = .ok r →
      alLookup r.c2s c =
        some (env.sumo_spawn_actor t
          (if cfg.sync_vehicle_color then actor.color_attr else none)) := by
  intro l
  induction l with
  | nil => intro m r _ hmem; cases hmem
  | cons x rest ih =>
    intro m r hnd hmem h
    by_cases hxc : x = c
    · subst hxc
      simp only [carlaSpawnLoop, hga, hvt, if_neg hinv] at h
      split at h
      · cases h
      · rename_i r' hrec
        cases h
        show alLookup r'.c2s x = _
        rw [carlaSpawnLoop_lookup_not_mem (List.nodup_cons.mp hnd).1 hrec]
        exact alLookup_insert_self m x _
    · have h1 : c ∈ rest := by
        rcases List.mem_cons.mp hmem with h1 | h1
        · exact absurd h1.symm hxc
        · exact h1
      simp only [carlaSpawnLoop] at h
      split at h
      · cases h
      · split at h
        · split at h
          · cases h
          · rename_i r' hrec
            cases h
            show alLookup r'.c2s c = _
            exact ih (List.nodup_cons.mp hnd).2 h1 hrec
        · split at h
          · cases h
          · rename_i r' hrec
            cases h
            show alLookup r'.c2s c = _
            exact ih (List.nodup_cons.mp hnd).2 h1 hrec

theorem carlaSpawnLoop_spawncall {cfg : SyncConfig} {env : TickEnv}
    {c : ActorId} {actor : ActorView} {t : VType}
    (hga : env.carla_get_actor c = .ok actor)
    (hvt : env.get_sumo_vtype actor = some t) :
    ∀ {l : List ActorId} {m r}, c ∈ l → carlaSpawnLoop cfg env l m = .ok r →
      (t, if cfg.sync_vehicle_color then actor.color_attr else none) ∈ r.spawn_calls := by
  intro l
  induction l with
  | nil => intro m r hmem; cases hmem
  | cons x rest ih =>
    intro m r hmem h
    by_cases hxc : x = c
    · subst hxc
      simp only [carlaSpawnLoop, hga, hvt] at h
      split at h
      · cases h
      · rename_i r' hrec
        cases h
        exact List.mem_cons_self _ _
    · have h1 : c ∈ rest := by
        rcases List.mem_cons.mp hmem with h1 | h1
        · exact absurd h1.symm hxc
        · exact h1
      simp only [carlaSpawnLoop] at h
      split at h
      · cases h
      · rename_i actor2 hga2
        split at h
        · rename_i t2 hvt2
          split at h
          · cases h
          · rename_i r' hrec
            cases h
            show (t, if cfg.sync_vehicle_color then actor.color_attr else none)
              ∈ (t2, if cfg.sync_vehicle_color then actor2.color_attr else none)
                :: r'.spawn_calls
            exact List.mem_cons_of_mem _ (ih h1 hrec)
        · split at h
          · cases h
          · rename_i r' hrec
            cases h
            show (t, if cfg.sync_vehicle_color then actor.color_attr else none)
              ∈ r'.spawn_calls
            exact ih h1 hrec

theorem carlaSpawnLoop_lookup_never_vtype {cfg : SyncConfig} {env : TickEnv} {c : ActorId}
    (hnone : ∀ actor, env.carla_get_actor c = .ok actor →
      env.get_sumo_vtype actor = none) :
    ∀ {l : List ActorId} {m r}, carlaSpawnLoop cfg env l m = .ok r →
      alLookup r.c2s c = alLookup m c := by
  intro l
  induction l with
  | nil =>
    intro m r h
    simp only [carlaSpawnLoop] at h
    cases h
    rfl
  | cons x rest ih =>
    intro m r h
    simp only [carlaSpawnLoop] at h
    split at h
    · cases h
    · rename_i actor2 hga2
      split at h
      · rename_i t2 hvt2
        split at h
        · cases h
        · rename_i r' hrec
          cases h
          show alLookup r'.c2s c = alLookup m c
          by_cases hxc : x = c
          · subst hxc
            rw [hnone actor2 hga2] at hvt2
            cases hvt2
          · rw [ih hrec]
            exact alLookup_ite_insert_ne (Ne.symm hxc)
      · split at h
        · cases h
        · rename_i r' hrec
          cases h
          show alLookup r'.c2s c = alLookup m c
          exact ih hrec

theorem carlaSpawnLoop_invalid_cons {cfg : SyncConfig} {env : TickEnv}
    {c : ActorId} {actor : ActorView} {t : VType}
    (hga : env.carla_get_actor c = .ok actor)
    (hvt : env.get_sumo_vtype actor = some t)
    (hinv : env.sumo_spawn_actor t
        (if cfg.sync_vehicle_color then actor.color_attr else none) = INVALID_ACTOR_ID)
    (l : List ActorId) (m : List (ActorId × ActorId)) :
    carlaSpawnLoop cfg env (c :: l) m =
      Except.map (fun r => ⟨r.c2s, r.mirror_subs,
          (t, if cfg.sync_vehicle_color then actor.color_attr else none) :: r.spawn_calls⟩)
        (carlaSpawnLoop cfg env l m) := by
  simp only [carlaSpawnLoop, hga, hvt, hinv, if_pos]
  cases hrec : carlaSpawnLoop cfg env l m <;> simp [Except.map]


/-! ### State-propagation (update) loop characterizations -/

theorem sumoUpdateLoop_spec {cfg : SyncConfig} {env : TickEnv} :
    ∀ {l : List (ActorId × ActorId)} {ups}, sumoUpdateLoop cfg env l = .ok ups →
      ups.length = l.length ∧
      ∀ (i : Nat) s c, l[i]? = some (s, c) → ∃ sa ca,
        env.sumo_get_actor s = .ok sa ∧ env.carla_get_actor c = .ok ca ∧
        ups[i]? = some (c, env.get_carla_transform sa.pose sa.extent,
          if cfg.sync_vehicle_lights then
            some (env.get_carla_lights_state ca.light_state sa.signals)
          else none) := by
  intro l
  induction l with
  | nil =>
    intro ups h
    simp only [sumoUpdateLoop] at h
    cases h
    refine ⟨rfl, fun i s c hi => ?_⟩
    simp at hi
  | cons p rest ih =>
    obtain ⟨sid, cid⟩ := p
    intro ups h
    simp only [sumoUpdateLoop] at h
    split at h
    · cases h
    · rename_i sa hga
      split at h
      · cases h
      · rename_i ca hca
        split at h
        · cases h
        · rename_i r' hrec
          cases h
          obtain ⟨hlen, hidx⟩ := ih hrec
          refine ⟨by simp [hlen], fun i s c hi => ?_⟩
          cases i with
          | zero =>
            simp only [List.getElem?_cons_zero, Option.some.injEq, Prod.mk.injEq] at hi
            obtain ⟨rfl, rfl⟩ := hi
            exact ⟨sa, ca, hga, hca, by simp⟩
          | succ n =>
            simp only [List.getElem?_cons_succ] at hi ⊢
            exact hidx n s c hi

theorem carlaUpdateLoop_spec {cfg : SyncConfig} {env : TickEnv} :
    ∀ {l : List (ActorId × ActorId)} {ups}, carlaUpdateLoop cfg env l = .ok ups →
      ups.length = l.length ∧
      ∀ (i : Nat) c s, l[i]? = some (c, s) → ∃ ca sa,
        env.carla_get_actor c = .ok ca ∧ env.sumo_get_actor s = .ok sa ∧
        ups[i]? = some (s, env.get_sumo_transform ca.pose ca.extent,
          if cfg.sync_vehicle_lights then
            match env.carla_get_actor_light_state c with
            | some cl => some (env.get_sumo_lights_state sa.signals cl)
            | none => none
          else none) := by
  intro l
  induction l with
  | nil =>
    intro ups h
    simp only [carlaUpdateLoop] at h
    cases h
    refine ⟨rfl, fun i c s hi => ?_⟩
    simp at hi
  | cons p rest ih =>
    obtain ⟨cid, sid⟩ := p
    intro ups h
    simp only [carlaUpdateLoop] at h
    split at h
    · cases h
    · rename_i ca hca
      split at h
      · cases h
      · rename_i sa hga
        split at h
        · cases h
        · rename_i r' hrec
          cases h
          obtain ⟨hlen, hidx⟩ := ih hrec
          refine ⟨by simp [hlen], fun i c s hi => ?_⟩
          cases i with
          | zero =>
            simp only [List.getElem?_cons_zero, Option.some.injEq, Prod.mk.injEq] at hi
            obtain ⟨rfl, rfl⟩ := hi
            exact ⟨ca, sa, hca, hga, by simp⟩
          | succ n =>
            simp only [List.getElem?_cons_succ] at hi ⊢
            exact hidx n c s hi

/-! ### Half-pass and tick inversion lemmas -/

theorem sumoToCarlaPass_inv {cfg : SyncConfig} {env : TickEnv} {st : SyncState}
    {st1 : SyncState} {e1 : SumoPassEff}
    (h : sumoToCarlaPass cfg env st = .ok (st1, e1)) :
    ∃ rs ups,
      sumoSpawnLoop cfg env (sumoConsidered env st) st.sumo2carla_ids = .ok rs ∧
      sumoUpdateLoop cfg env (destroyLoop env.sumo_destroyed_actors rs.s2c).1 = .ok ups ∧
      st1 = ⟨(destroyLoop env.sumo_destroyed_actors rs.s2c).1, st.carla2sumo_ids⟩ ∧
      e1 = ⟨rs.subs, rs.unsubs, rs.spawn_calls,
            (destroyLoop env.sumo_destroyed_actors rs.s2c).2, ups,
            if cfg.tls_manager = "sumo" then tlUpdatesToCarla env else []⟩ := by
  simp only [sumoToCarlaPass] at h
  split at h
  · cases h
  · rename_i rs hs
    split at h
    · cases h
    · rename_i ups hu
      simp only [Except.ok.injEq, Prod.mk.injEq] at h
      exact ⟨rs, ups, hs, hu, h.1.symm, h.2.symm⟩

theorem carlaToSumoPass_inv {cfg : SyncConfig} {env : TickEnv} {st : SyncState}
    {st2 : SyncState} {e2 : CarlaPassEff}
    (h : carlaToSumoPass cfg env st = .ok (st2, e2)) :
    ∃ rs ups,
      carlaSpawnLoop cfg env (carlaConsidered env st) st.carla2sumo_ids = .ok rs ∧
      carlaUpdateLoop cfg env (destroyLoop env.carla_destroyed_actors rs.c2s).1 = .ok ups ∧
      st2 = ⟨st.sumo2carla_ids, (destroyLoop env.carla_destroyed_actors rs.c2s).1⟩ ∧
      e2 = ⟨rs.spawn_calls, rs.mirror_subs,
            (destroyLoop env.carla_destroyed_actors rs.c2s).2, ups,
            if cfg.tls_manager = "carla" then tlUpdatesToSumo env else []⟩ := by
  simp only [carlaToSumoPass] at h
  split at h
  · cases h
  · rename_i rs hs
    split at h
    · cases h
    · rename_i ups hu
      simp only [Except.ok.injEq, Prod.mk.injEq] at h
      exact ⟨rs, ups, hs, hu, h.1.symm, h.2.symm⟩

theorem tick_inv {cfg : SyncConfig} {env : TickEnv} {st : SyncState}
    {st2 : SyncState} {e1 : SumoPassEff} {e2 : CarlaPassEff}
    (h : tick cfg env st = .ok (st2, e1, e2)) :
    ∃ st1, sumoToCarlaPass cfg env st = .ok (st1, e1) ∧
      carlaToSumoPass cfg env st1 = .ok (st2, e2) := by
  simp only [tick] at h
  split at h
  · cases h
  · rename_i st1 e1' hp1
    split at h
    · cases h
    · rename_i st2' e2' hp2
      simp only [Except.ok.injEq, Prod.mk.injEq] at h
      obtain ⟨h1, h2, h3⟩ := h
      subst h1
      subst h2
      subst h3
      exact ⟨st1, hp1, hp2⟩

theorem tick_error_of_sumoPass {cfg : SyncConfig} {env : TickEnv} {st : SyncState}
    {e : Err} (h : sumoToCarlaPass cfg env st = .error e) :
    tick cfg env st = .error e := by
  simp only [tick, h]

theorem tick_error_of_carlaPass {cfg : SyncConfig} {env : TickEnv} {st : SyncState}
    {st1 : SyncState} {e1 : SumoPassEff} {e : Err}
    (h1 : sumoToCarlaPass cfg env st = .ok (st1, e1))
    (h2 : carlaToSumoPass cfg env st1 = .error e) :
    tick cfg env st = .error e := by
  simp only [tick, h1, h2]

/-! ### Multi-tick preservation lemmas -/

theorem tick_preserves_no_s2c {cfg : SyncConfig} {env : TickEnv} {st st' : SyncState}
    {e1 : SumoPassEff} {e2 : CarlaPassEff} {a : ActorId}
    (hnone : ∀ actor, env.sumo_get_actor a = .ok actor →
      env.get_carla_blueprint actor cfg.sync_vehicle_color = none)
    (h : tick cfg env st = .ok (st', e1, e2))
    (h0 : alContains st.sumo2carla_ids a = false) :
    alContains st'.sumo2carla_ids a = false := by
  obtain ⟨st1, hp1, hp2⟩ := tick_inv h
  obtain ⟨rs, ups, hs, hu, hst1, he1⟩ := sumoToCarlaPass_inv hp1
  have hrs : alLookup rs.s2c a = alLookup st.sumo2carla_ids a :=
    sumoSpawnLoop_lookup_never_bp hnone hs
  have h1 : alContains rs.s2c a = false := by
    unfold alContains at h0 ⊢
    rw [hrs]
    exact h0
  have h2 : alContains st1.sumo2carla_ids a = false := by
    rw [hst1]
    exact destroyLoop_contains_false h1
  obtain ⟨rs2, ups2, hs2, hu2, hst2, he2⟩ := carlaToSumoPass_inv hp2
  rw [hst2]
  exact h2

theorem runTicks_preserves_no_s2c {cfg : SyncConfig} {a : ActorId} :
    ∀ {envs : List TickEnv} {st st' : SyncState},
      (∀ env ∈ envs, ∀ actor, env.sumo_get_actor a = .ok actor →
        env.get_carla_blueprint actor cfg.sync_vehicle_color = none) →
      runTicks cfg envs st = .ok st' →
      alContains st.sumo2carla_ids a = false →
      alContains st'.sumo2carla_ids a = false := by
  intro envs
  induction envs with
  | nil =>
    intro st st' _ h h0
    simp only [runTicks] at h
    cases h
    exact h0
  | cons e rest ih =>
    intro st st' hnone h h0
    simp only [runTicks] at h
    split at h
    · cases h
    · rename_i st1 e1 e2 htick
      exact ih (fun env henv => hnone env (List.mem_cons_of_mem _ henv)) h
        (tick_preserves_no_s2c (hnone e (List.mem_cons_self _ _)) htick h0)

theorem tick_preserves_no_c2s {cfg : SyncConfig} {env : TickEnv} {st st' : SyncState}
    {e1 : SumoPassEff} {e2 : CarlaPassEff} {c : ActorId}
    (hnone : ∀ actor, env.carla_get_actor c = .ok actor →
      env.get_sumo_vtype actor = none)
    (h : tick cfg env st = .ok (st', e1, e2))
    (h0 : alContains st.carla2sumo_ids c = false) :
    alContains st'.carla2sumo_ids c = false := by
  obtain ⟨st1, hp1, hp2⟩ := tick_inv h
  obtain ⟨rs, ups, hs, hu, hst1, he1⟩ := sumoToCarlaPass_inv hp1
  have h1 : alContains st1.carla2sumo_ids c = false := by
    rw [hst1]
    exact h0
  obtain ⟨rs2, ups2, hs2, hu2, hst2, he2⟩ := carlaToSumoPass_inv hp2
  have hrs2 : alLookup rs2.c2s c = alLookup st1.carla2sumo_ids c :=
    carlaSpawnLoop_lookup_never_vtype hnone hs2
  have h2 : alContains rs2.c2s c = false := by
    unfold alContains at h1 ⊢
    rw [hrs2]
    exact h1
  rw [hst2]
  exact destroyLoop_contains_false h2

theorem runTicks_preserves_no_c2s {cfg : SyncConfig} {c : ActorId} :
    ∀ {envs : List TickEnv} {st st' : SyncState},
      (∀ env ∈ envs, ∀ actor, env.carla_get_actor c = .ok actor →
        env.get_sumo_vtype actor = none) →
      runTicks cfg envs st = .ok st' →
      alContains st.carla2sumo_ids c = false →
      alContains st'.carla2sumo_ids c = false := by
  intro envs
  induction envs with
  | nil =>
    intro st st' _ h h0
    simp only [runTicks] at h
    cases h
    exact h0
  | cons e rest ih =>
    intro st st' hnone h h0
    simp only [runTicks] at h
    split at h
    · cases h
    · rename_i st1 e1 e2 htick
      exact ih (fun env henv => hnone env (List.mem_cons_of_mem _ henv)) h
        (tick_preserves_no_c2s (hnone e (List.mem_cons_self _ _)) htick h0)



/-! ### Claim theorems -/

/-- Claim C1: on every tick, the spawn-propagation step of each half-pass
considers only ids in that world's spawned set that are not values of the
opposite mapping table (for the sumo pass this is witnessed by the
subscribe calls, which cover exactly the considered ids), so an entity
that is itself a mirror is never used as a spawn source and never becomes
a key of the other table by the end of the tick. -/
theorem claim_C1_no_remirroring (cfg : SyncConfig) (env : TickEnv)
    (st st1 st2 : SyncState) (e1 : SumoPassEff) (e2 : CarlaPassEff)
    (h1 : sumoToCarlaPass cfg env st = .ok (st1, e1))
    (h2 : carlaToSumoPass cfg env st1 = .ok (st2, e2)) :
    e1.sumo_subs = sumoConsidered env st ∧
    (∀ a, a ∈ alValues st.carla2sumo_ids → alContains st.sumo2carla_ids a = false →
      alContains st2.sumo2carla_ids a = false) ∧
    (∀ c, c ∈ alValues st1.sumo2carla_ids → alContains st1.carla2sumo_ids c = false →
      alContains st2.carla2sumo_ids c = false) := by
  obtain ⟨rs, ups, hs, hu, hst1, he1⟩ := sumoToCarlaPass_inv h1
  obtain ⟨rs2, ups2, hs2, hu2, hst2, he2⟩ := carlaToSumoPass_inv h2
  refine ⟨?_, ?_, ?_⟩
  · subst he1
    exact sumoSpawnLoop_subs hs
  · intro a hval h0
    have hnc : a ∉ sumoConsidered env st := by
      intro hmem
      rw [sumoConsidered, List.mem_filter] at hmem
      simp [hval] at hmem
    have hlook : alLookup rs.s2c a = alLookup st.sumo2carla_ids a :=
      sumoSpawnLoop_lookup_not_mem hnc hs
    have hc1 : alContains rs.s2c a = false := by
      unfold alContains at h0 ⊢
      rw [hlook]
      exact h0
    have hc2 : alContains st1.sumo2carla_ids a = false := by
      rw [hst1]
      exact destroyLoop_contains_false hc1
    rw [hst2]
    exact hc2
  · intro c hval h0
    have hnc : c ∉ carlaConsidered env st1 := by
      intro hmem
      rw [carlaConsidered, List.mem_filter] at hmem
      simp [hval] at hmem
    have hlook : alLookup rs2.c2s c = alLookup st1.carla2sumo_ids c :=
      carlaSpawnLoop_lookup_not_mem hnc hs2
    have hc1 : alContains rs2.c2s c = false := by
      unfold alContains at h0 ⊢
      rw [hlook]
      exact h0
    rw [hst2]
    exact destroyLoop_contains_false hc1

/-- Claim C1 witness: in the concrete scenario, sumo id 5 is a mirror
(a value of `carla2sumo_ids`), is excluded from the considered spawn list
(`[1]`), and is not a key of `sumo2carla_ids` at the end of the tick. -/
theorem claim_C1_witness :
    sumoToCarlaPass cfgW envW stW =
      .ok (⟨[(1, 21)], [(50, 5)]⟩,
        ⟨[1], [], [(11, 12)], [], [(21, 12, some 7)], [(100, 2)]⟩) ∧
    carlaToSumoPass cfgW envW ⟨[(1, 21)], [(50, 5)]⟩ =
      .ok (⟨[(1, 21)], [(50, 5), (40, 7)]⟩,
        ⟨[(12, none)], [7], [], [(5, 22, some 12), (7, 22, some 12)], []⟩) ∧
    (⟨[1], [], [(11, 12)], [], [(21, 12, some 7)], [(100, 2)]⟩ : SumoPassEff).sumo_subs
      = sumoConsidered envW stW ∧
    alContains (⟨[(1, 21)], [(50, 5), (40, 7)]⟩ : SyncState).sumo2carla_ids 5 = false := by
  have h1 : sumoToCarlaPass cfgW envW stW =
      .ok (⟨[(1, 21)], [(50, 5)]⟩,
        ⟨[1], [], [(11, 12)], [], [(21, 12, some 7)], [(100, 2)]⟩) := by decide
  have h2 : carlaToSumoPass cfgW envW ⟨[(1, 21)], [(50, 5)]⟩ =
      .ok (⟨[(1, 21)], [(50, 5), (40, 7)]⟩,
        ⟨[(12, none)], [7], [], [(5, 22, some 12), (7, 22, some 12)], []⟩) := by decide
  obtain ⟨c1, c2, c3⟩ := claim_C1_no_remirroring cfgW envW stW _ _ _ _ h1 h2
  exact ⟨h1, h2, c1, c2 5 (by decide) (by decide)⟩


/-- Claim C2: no orphan mirrors — for every id in the driver world's
destroyed set that is a key of that direction's table at the start of the
destroy-propagation step, the mapped mirror receives a destroy call and
the pair is gone from the table by the end of the tick; a destroyed id
that is not a key is a no-op that issues no destroy call and leaves the
tables unchanged.  Both half-passes are covered. -/
theorem claim_C2_destroy_propagation (cfg : SyncConfig) (env : TickEnv)
    (st st1 st2 : SyncState) (e1 : SumoPassEff) (e2 : CarlaPassEff)
    (rs : SumoSpawnRes) (rs2 : CarlaSpawnRes)
    (hndk : (alKeys st.sumo2carla_ids).Nodup)
    (hndk2 : (alKeys st.carla2sumo_ids).Nodup)
    (hs : sumoSpawnLoop cfg env (sumoConsidered env st) st.sumo2carla_ids = .ok rs)
    (h1 : sumoToCarlaPass cfg env st = .ok (st1, e1))
    (hs2 : carlaSpawnLoop cfg env (carlaConsidered env st1) st1.carla2sumo_ids = .ok rs2)
    (h2 : carlaToSumoPass cfg env st1 = .ok (st2, e2)) :
    (∀ a ∈ env.sumo_destroyed_actors,
      (∀ b, alLookup rs.s2c a = some b →
        b ∈ e1.carla_destroy_calls ∧ alContains st2.sumo2carla_ids a = false) ∧
      (alLookup rs.s2c a = none →
        ∀ dl, destroyLoop (a :: dl) rs.s2c = destroyLoop dl rs.s2c)) ∧
    ((∀ a ∈ env.sumo_destroyed_actors, alContains rs.s2c a = false) →
      st1.sumo2carla_ids = rs.s2c ∧ e1.carla_destroy_calls = []) ∧
    (∀ c ∈ env.carla_destroyed_actors,
      (∀ b, alLookup rs2.c2s c = some b →
        b ∈ e2.sumo_destroy_calls ∧ alContains st2.carla2sumo_ids c = false) ∧
      (alLookup rs2.c2s c = none →
        ∀ dl, destroyLoop (c :: dl) rs2.c2s = destroyLoop dl rs2.c2s)) ∧
    ((∀ c ∈ env.carla_destroyed_actors, alContains rs2.c2s c = false) →
      st2.carla2sumo_ids = rs2.c2s ∧ e2.sumo_destroy_calls = []) := by
  obtain ⟨rs', ups, hs', hu, hst1, he1⟩ := sumoToCarlaPass_inv h1
  rw [hs] at hs'
  cases hs'
  obtain ⟨rs2', ups2, hs2', hu2, hst2, he2⟩ := carlaToSumoPass_inv h2
  rw [hs2] at hs2'
  cases hs2'
  have hnds2c : (alKeys rs.s2c).Nodup := sumoSpawnLoop_keys_nodup hs hndk
  have hndc2s : (alKeys rs2.c2s).Nodup := by
    refine carlaSpawnLoop_keys_nodup hs2 ?_
    rw [hst1]
    exact hndk2
  refine ⟨?_, ?_, ?_, ?_⟩
  · intro a ha
    constructor
    · intro b hb
      constructor
      · rw [he1]
        exact destroyLoop_calls ha hb
      · rw [hst2]
        show alContains st1.sumo2carla_ids a = false
        rw [hst1]
        exact destroyLoop_removes ha hnds2c
    · intro hnone dl
      exact destroyLoop_noop (alContains_eq_false.mpr hnone) dl
  · intro hall
    have hd := destroyLoop_all_noop hall
    constructor
    · rw [hst1]
      show (destroyLoop env.sumo_destroyed_actors rs.s2c).1 = rs.s2c
      rw [hd]
    · rw [he1]
      show (destroyLoop env.sumo_destroyed_actors rs.s2c).2 = []
      rw [hd]
  · intro c hc
    constructor
    · intro b hb
      constructor
      · rw [he2]
        exact destroyLoop_calls hc hb
      · rw [hst2]
        show alContains (destroyLoop env.carla_destroyed_actors rs2.c2s).1 c = false
        exact destroyLoop_removes hc hndc2s
    · intro hnone dl
      exact destroyLoop_noop (alContains_eq_false.mpr hnone) dl
  · intro hall
    have hd := destroyLoop_all_noop hall
    constructor
    · rw [hst2]
      show (destroyLoop env.carla_destroyed_actors rs2.c2s).1 = rs2.c2s
      rw [hd]
    · rw [he2]
      show (destroyLoop env.carla_destroyed_actors rs2.c2s).2 = []
      rw [hd]

/-- Claim C2 witness: starting with the pair (3, 33) mapped and SUMO
reporting actor 3 destroyed, mirror 33 receives a CARLA destroy call and
3 is no longer a key at the end of the tick. -/
theorem claim_C2_witness :
    sumoSpawnLoop cfgW envW (sumoConsidered envW ⟨[(3, 33)], [(50, 5)]⟩) [(3, 33)] =
      .ok ⟨[(3, 33), (1, 21)], [1], [], [(11, 12)]⟩ ∧
    sumoToCarlaPass cfgW envW ⟨[(3, 33)], [(50, 5)]⟩ =
      .ok (⟨[(1, 21)], [(50, 5)]⟩,
        ⟨[1], [], [(11, 12)], [33], [(21, 12, some 7)], [(100, 2)]⟩) ∧
    33 ∈ (⟨[1], [], [(11, 12)], [33], [(21, 12, some 7)], [(100, 2)]⟩
      : SumoPassEff).carla_destroy_calls ∧
    alContains (⟨[(1, 21)], [(50, 5), (40, 7)]⟩ : SyncState).sumo2carla_ids 3 = false := by
  have hs : sumoSpawnLoop cfgW envW (sumoConsidered envW ⟨[(3, 33)], [(50, 5)]⟩) [(3, 33)] =
      .ok ⟨[(3, 33), (1, 21)], [1], [], [(11, 12)]⟩ := by decide
  have h1 : sumoToCarlaPass cfgW envW ⟨[(3, 33)], [(50, 5)]⟩ =
      .ok (⟨[(1, 21)], [(50, 5)]⟩,
        ⟨[1], [], [(11, 12)], [33], [(21, 12, some 7)], [(100, 2)]⟩) := by decide
  have hs2 : carlaSpawnLoop cfgW envW (carlaConsidered envW ⟨[(1, 21)], [(50, 5)]⟩) [(50, 5)] =
      .ok ⟨[(50, 5), (40, 7)], [7], [(12, none)]⟩ := by decide
  have h2 : carlaToSumoPass cfgW envW ⟨[(1, 21)], [(50, 5)]⟩ =
      .ok (⟨[(1, 21)], [(50, 5), (40, 7)]⟩,
        ⟨[(12, none)], [7], [], [(5, 22, some 12), (7, 22, some 12)], []⟩) := by decide
  obtain ⟨cA, cB, cC, cD⟩ := claim_C2_destroy_propagation cfgW envW
    ⟨[(3, 33)], [(50, 5)]⟩ _ _ _ _ _ _ (by decide) (by decide) hs h1 hs2 h2
  obtain ⟨hcall, hgone⟩ := (cA 3 (by decide)).1 33 (by decide)
  exact ⟨hs, h1, hcall, hgone⟩


/-- Claim C3: traffic-light propagation runs only on the half-pass matching
the configured authority world, iterates exactly the fresh intersection of
both worlds' traffic-light id sets pushing the authority's translated
state, and when the authority mode is the string `'none'` neither
direction propagates any traffic-light state. -/
theorem claim_C3_traffic_light_authority (cfg : SyncConfig) (env : TickEnv)
    (st st2 : SyncState) (e1 : SumoPassEff) (e2 : CarlaPassEff)
    (h : tick cfg env st = .ok (st2, e1, e2)) :
    (∀ i, i ∈ commonLandmarks env ↔
      i ∈ env.sumo_traffic_light_ids ∧ i ∈ env.carla_traffic_light_ids) ∧
    (cfg.tls_manager = "sumo" →
      e1.tl_updates_to_carla = (commonLandmarks env).map
        (fun i => (i, env.bridge_carla_tl_state (env.sumo_get_tl_state i))) ∧
      e2.tl_updates_to_sumo = []) ∧
    (cfg.tls_manager = "carla" →
      e2.tl_updates_to_sumo = (commonLandmarks env).map
        (fun i => (i, env.bridge_sumo_tl_state (env.carla_get_tl_state i))) ∧
      e1.tl_updates_to_carla = []) ∧
    (cfg.tls_manager = "none" →
      e1.tl_updates_to_carla = [] ∧ e2.tl_updates_to_sumo = []) := by
  obtain ⟨st1, hp1, hp2⟩ := tick_inv h
  obtain ⟨rs, ups, hs, hu, hst1, he1⟩ := sumoToCarlaPass_inv hp1
  obtain ⟨rs2, ups2, hs2, hu2, hst2, he2⟩ := carlaToSumoPass_inv hp2
  refine ⟨?_, ?_, ?_, ?_⟩
  · intro i
    constructor
    · intro hm
      rw [commonLandmarks, List.mem_filter] at hm
      exact ⟨hm.1, List.mem_of_elem_eq_true hm.2⟩
    · rintro ⟨ha, hb⟩
      rw [commonLandmarks, List.mem_filter]
      exact ⟨ha, List.elem_eq_true_of_mem hb⟩
  · intro hsumo
    constructor
    · rw [he1]
      show (if cfg.tls_manager = "sumo" then tlUpdatesToCarla env else []) = _
      rw [if_pos hsumo]
      rfl
    · rw [he2]
      show (if cfg.tls_manager = "carla" then tlUpdatesToSumo env else []) = []
      rw [if_neg (by rw [hsumo]; decide)]
  · intro hcarla
    constructor
    · rw [he2]
      show (if cfg.tls_manager = "carla" then tlUpdatesToSumo env else []) = _
      rw [if_pos hcarla]
      rfl
    · rw [he1]
      show (if cfg.tls_manager = "sumo" then tlUpdatesToCarla env else []) = []
      rw [if_neg (by rw [hcarla]; decide)]
  · intro hnone
    constructor
    · rw [he1]
      show (if cfg.tls_manager = "sumo" then tlUpdatesToCarla env else []) = []
      rw [if_neg (by rw [hnone]; decide)]
    · rw [he2]
      show (if cfg.tls_manager = "carla" then tlUpdatesToSumo env else []) = []
      rw [if_neg (by rw [hnone]; decide)]

/-- Claim C3 witness: with SUMO as the authority, landmark 100 (present in
both worlds, unlike 101) receives exactly one translated update in CARLA
and none flows toward SUMO. -/
theorem claim_C3_witness :
    tick cfgW envW stW =
      .ok (⟨[(1, 21)], [(50, 5), (40, 7)]⟩,
        ⟨[1], [], [(11, 12)], [], [(21, 12, some 7)], [(100, 2)]⟩,
        ⟨[(12, none)], [7], [], [(5, 22, some 12), (7, 22, some 12)], []⟩) ∧
    (⟨[1], [], [(11, 12)], [], [(21, 12, some 7)], [(100, 2)]⟩
        : SumoPassEff).tl_updates_to_carla =
      (commonLandmarks envW).map
        (fun i => (i, envW.bridge_carla_tl_state (envW.sumo_get_tl_state i))) ∧
    (⟨[(12, none)], [7], [], [(5, 22, some 12), (7, 22, some 12)], []⟩
        : CarlaPassEff).tl_updates_to_sumo = [] ∧
    (100 ∈ commonLandmarks envW ↔
      100 ∈ envW.sumo_traffic_light_ids ∧ 100 ∈ envW.carla_traffic_light_ids) := by
  have h : tick cfgW envW stW =
      .ok (⟨[(1, 21)], [(50, 5), (40, 7)]⟩,
        ⟨[1], [], [(11, 12)], [], [(21, 12, some 7)], [(100, 2)]⟩,
        ⟨[(12, none)], [7], [], [(5, 22, some 12), (7, 22, some 12)], []⟩) := by decide
  obtain ⟨c1, c2, c3, c4⟩ := claim_C3_traffic_light_authority cfgW envW stW _ _ _ h
  obtain ⟨ha, hb⟩ := c2 rfl
  exact ⟨h, ha, hb, c1 100⟩

/-- Claim C4: on every tick, every pair remaining in a mapping table after
that half-pass's destroy-propagation step gets exactly one state push to
its mirror — the update list has one entry per pair, at the pair's index,
built from the freshly read driver pose — and the lights argument is
`none` whenever `sync_vehicle_lights` is unset. -/
theorem claim_C4_state_overwrite (cfg : SyncConfig) (env : TickEnv)
    (st st1 st2 : SyncState) (e1 : SumoPassEff) (e2 : CarlaPassEff)
    (h1 : sumoToCarlaPass cfg env st = .ok (st1, e1))
    (h2 : carlaToSumoPass cfg env st1 = .ok (st2, e2)) :
    (e1.carla_vehicle_updates.length = st1.sumo2carla_ids.length ∧
     ∀ (i : Nat) s c, st1.sumo2carla_ids[i]? = some (s, c) → ∃ sa ca,
       env.sumo_get_actor s = .ok sa ∧ env.carla_get_actor c = .ok ca ∧
       e1.carla_vehicle_updates[i]? = some (c,
         env.get_carla_transform sa.pose sa.extent,
         if cfg.sync_vehicle_lights then
           some (env.get_carla_lights_state ca.light_state sa.signals)
         else none)) ∧
    (e2.sumo_vehicle_updates.length = st2.carla2sumo_ids.length ∧
     ∀ (i : Nat) c s, st2.carla2sumo_ids[i]? = some (c, s) → ∃ ca sa,
       env.carla_get_actor c = .ok ca ∧ env.sumo_get_actor s = .ok sa ∧
       e2.sumo_vehicle_updates[i]? = some (s,
         env.get_sumo_transform ca.pose ca.extent,
         if cfg.sync_vehicle_lights then
           match env.carla_get_actor_light_state c with
           | some cl => some (env.get_sumo_lights_state sa.signals cl)
           | none => none
         else none)) := by
  obtain ⟨rs, ups, hs, hu, hst1, he1⟩ := sumoToCarlaPass_inv h1
  obtain ⟨rs2, ups2, hs2, hu2, hst2, he2⟩ := carlaToSumoPass_inv h2
  constructor
  · constructor
    · rw [he1, hst1]
      exact (sumoUpdateLoop_spec hu).1
    · rw [he1, hst1]
      exact (sumoUpdateLoop_spec hu).2
  · constructor
    · rw [he2, hst2]
      exact (carlaUpdateLoop_spec hu2).1
    · rw [he2, hst2]
      exact (carlaUpdateLoop_spec hu2).2

/-- Claim C4 witness: the single surviving pair (1, 21) of the sumo→carla
direction gets exactly one update entry, with translated pose 12 and a
translated lights argument (light sync is on). -/
theorem claim_C4_witness :
    sumoToCarlaPass cfgW envW stW =
      .ok (⟨[(1, 21)], [(50, 5)]⟩,
        ⟨[1], [], [(11, 12)], [], [(21, 12, some 7)], [(100, 2)]⟩) ∧
    (⟨[1], [], [(11, 12)], [], [(21, 12, some 7)], [(100, 2)]⟩
        : SumoPassEff).carla_vehicle_updates.length
      = (⟨[(1, 21)], [(50, 5)]⟩ : SyncState).sumo2carla_ids.length ∧
    ∃ sa ca, envW.sumo_get_actor 1 = .ok sa ∧ envW.carla_get_actor 21 = .ok ca ∧
      (⟨[1], [], [(11, 12)], [], [(21, 12, some 7)], [(100, 2)]⟩
          : SumoPassEff).carla_vehicle_updates[0]? = some (21,
        envW.get_carla_transform sa.pose sa.extent,
        if cfgW.sync_vehicle_lights then
          some (envW.get_carla_lights_state ca.light_state sa.signals)
        else none) := by
  have h1 : sumoToCarlaPass cfgW envW stW =
      .ok (⟨[(1, 21)], [(50, 5)]⟩,
        ⟨[1], [], [(11, 12)], [], [(21, 12, some 7)], [(100, 2)]⟩) := by decide
  have h2 : carlaToSumoPass cfgW envW ⟨[(1, 21)], [(50, 5)]⟩ =
      .ok (⟨[(1, 21)], [(50, 5), (40, 7)]⟩,
        ⟨[(12, none)], [7], [], [(5, 22, some 12), (7, 22, some 12)], []⟩) := by decide
  obtain ⟨⟨hlen, hidx⟩, -⟩ := claim_C4_state_overwrite cfgW envW stW _ _ _ _ h1 h2
  exact ⟨h1, hlen, hidx 0 1 21 (by decide)⟩


/-- Claim C5: a spawn returning the sentinel `INVALID_ACTOR_ID` adds no
mapping entry, raises nothing, and processing simply continues with the
remaining spawned ids (in both directions). -/
theorem claim_C5_spawn_failure_nonfatal :
    (∀ (cfg : SyncConfig) (env : TickEnv) (a : ActorId) (actor : ActorView)
        (bp : Blueprint) (l : List ActorId) (m : List (ActorId × ActorId)),
      env.sumo_get_actor a = .ok actor →
      env.get_carla_blueprint actor cfg.sync_vehicle_color = some bp →
      env.carla_spawn_actor bp (env.get_carla_transform actor.pose actor.extent)
        = INVALID_ACTOR_ID →
      sumoSpawnLoop cfg env (a :: l) m =
        Except.map (fun r => ⟨r.s2c, a :: r.subs, r.unsubs,
            (bp, env.get_carla_transform actor.pose actor.extent) :: r.spawn_calls⟩)
          (sumoSpawnLoop cfg env l m) ∧
      (a ∉ l → alContains m a = false →
        ∀ r, sumoSpawnLoop cfg env (a :: l) m = .ok r → alContains r.s2c a = false)) ∧
    (∀ (cfg : SyncConfig) (env : TickEnv) (c : ActorId) (actor : ActorView)
        (t : VType) (l : List ActorId) (m : List (ActorId × ActorId)),
      env.carla_get_actor c = .ok actor →
      env.get_sumo_vtype actor = some t →
      env.sumo_spawn_actor t (if cfg.sync_vehicle_color then actor.color_attr else none)
        = INVALID_ACTOR_ID →
      carlaSpawnLoop cfg env (c :: l) m =
        Except.map (fun r => ⟨r.c2s, r.mirror_subs,
            (t, if cfg.sync_vehicle_color then actor.color_attr else none)
              :: r.spawn_calls⟩)
          (carlaSpawnLoop cfg env l m) ∧
      (c ∉ l → alContains m c = false →
        ∀ r, carlaSpawnLoop cfg env (c :: l) m = .ok r →
          alContains r.c2s c = false)) := by
  constructor
  · intro cfg env a actor bp l m hga hbp hinv
    refine ⟨sumoSpawnLoop_invalid_cons hga hbp hinv l m, ?_⟩
    intro hnl hnm r hr
    rw [sumoSpawnLoop_invalid_cons hga hbp hinv l m] at hr
    cases h0 : sumoSpawnLoop cfg env l m with
    | error e =>
      rw [h0] at hr
      simp [Except.map] at hr
    | ok r0 =>
      rw [h0] at hr
      simp only [Except.map, Except.ok.injEq] at hr
      subst hr
      show alContains r0.s2c a = false
      unfold alContains at hnm ⊢
      rw [sumoSpawnLoop_lookup_not_mem hnl h0]
      exact hnm
  · intro cfg env c actor t l m hga hvt hinv
    refine ⟨carlaSpawnLoop_invalid_cons hga hvt hinv l m, ?_⟩
    intro hnl hnm r hr
    rw [carlaSpawnLoop_invalid_cons hga hvt hinv l m] at hr
    cases h0 : carlaSpawnLoop cfg env l m with
    | error e =>
      rw [h0] at hr
      simp [Except.map] at hr
    | ok r0 =>
      rw [h0] at hr
      simp only [Except.map, Except.ok.injEq] at hr
      subst hr
      show alContains r0.c2s c = false
      unfold alContains at hnm ⊢
      rw [carlaSpawnLoop_lookup_not_mem hnl h0]
      exact hnm

/-- Claim C5 witness: every spawn is rejected with the sentinel; processing
sumo actor 1 emits the spawn attempt, continues, and records no pair. -/
theorem claim_C5_witness :
    envInvalidSpawn.carla_spawn_actor 11 12 = INVALID_ACTOR_ID ∧
    sumoSpawnLoop cfgW envInvalidSpawn [1] [] =
      Except.map (fun r => ⟨r.s2c, 1 :: r.subs, r.unsubs, (11, 12) :: r.spawn_calls⟩)
        (sumoSpawnLoop cfgW envInvalidSpawn [] []) ∧
    alContains (⟨[], [1], [], [(11, 12)]⟩ : SumoSpawnRes).s2c 1 = false := by
  obtain ⟨heq, hnone⟩ := (claim_C5_spawn_failure_nonfatal).1 cfgW envInvalidSpawn 1 actorS
    11 [] [] rfl rfl rfl
  exact ⟨rfl, heq, hnone (List.not_mem_nil 1) rfl _ (by decide)⟩

/-- Claim C6 counterexample: the claim says a per-entity failure inside the
tick's propagation is caught at that entity's granularity and never aborts
the rest of the tick.  In this environment SUMO reports two fresh actors
and `get_actor` raises a stale-reference error only for the first; the
whole `tick` nevertheless returns that error — nothing catches it and the
second actor is never processed. -/
theorem claim_C6_counterexample :
    envStale.sumo_spawned_actors = [1, 2] ∧
    envStale.sumo_get_actor 1 = .error 7 ∧
    envStale.sumo_get_actor 2 = .ok actorS ∧
    tick cfgW envStale stW = .error 7 := by
  exact ⟨by decide, by decide, by decide, by decide⟩

/-- Claim C6 (amended): `tick` contains no exception handler, so an error
raised while processing one entity propagates out of the half-pass and out
of `tick` unchanged, aborting the remainder of the tick's propagation; in
particular a stale-reference error from `get_actor` on the head of the
spawn list fails the whole spawn loop. -/
theorem claim_C6_no_per_entity_catch (cfg : SyncConfig) (env : TickEnv)
    (st : SyncState) (e : Err) :
    (sumoToCarlaPass cfg env st = .error e → tick cfg env st = .error e) ∧
    (∀ st1 e1, sumoToCarlaPass cfg env st = .ok (st1, e1) →
      carlaToSumoPass cfg env st1 = .error e → tick cfg env st = .error e) ∧
    (∀ (a : ActorId) (rest : List ActorId) (m : List (ActorId × ActorId)),
      env.sumo_get_actor a = .error e →
      sumoSpawnLoop cfg env (a :: rest) m = .error e) := by
  refine ⟨tick_error_of_sumoPass, fun st1 e1 h1 h2 => tick_error_of_carlaPass h1 h2,
    fun a rest m h => ?_⟩
  simp only [sumoSpawnLoop, h]

/-- Claim C6 witness: in the stale-reference environment the sumo→carla
half-pass errors, and the amended theorem propagates that error to `tick`. -/
theorem claim_C6_witness :
    sumoToCarlaPass cfgW envStale stW = Except.error 7 ∧
    sumoSpawnLoop cfgW envStale (sumoConsidered envStale stW) stW.sumo2carla_ids
      = Except.error 7 ∧
    tick cfgW envStale stW = Except.error 7 := by
  have hp : sumoToCarlaPass cfgW envStale stW = .error 7 := by decide
  exact ⟨hp, by decide, (claim_C6_no_per_entity_catch cfgW envStale stW 7).1 hp⟩

theorem count_close_iterEvents (step e : ℚ) :
    (iterEvents step e).count LoopEvent.closeCall = 0 := by
  rw [List.count_eq_zero]
  intro hmem
  simp [iterEvents, List.mem_map] at hmem

theorem count_tick_iterEvents (step e : ℚ) :
    (iterEvents step e).count LoopEvent.tickStep = 1 := by
  rw [iterEvents, List.count_cons_self,
    List.count_eq_zero.mpr (by simp [List.mem_map])]

theorem fold_count_close (step : ℚ) (l : List ℚ) :
    ((l.foldr (fun e acc => iterEvents step e ++ acc) []).count
      LoopEvent.closeCall) = 0 := by
  induction l with
  | nil => rfl
  | cons x rest ih =>
    simp only [List.foldr_cons, List.count_append, ih, count_close_iterEvents]

theorem fold_count_tick (step : ℚ) (l : List ℚ) :
    ((l.foldr (fun e acc => iterEvents step e ++ acc) []).count
      LoopEvent.tickStep) = l.length := by
  induction l with
  | nil => rfl
  | cons x rest ih =>
    simp only [List.foldr_cons, List.count_append, ih, count_tick_iterEvents,
      List.length_cons]
    omega

theorem getLast_append_pair (l : List LoopEvent) (a b : LoopEvent) :
    (l ++ [a, b]).getLast? = some b := by
  have h : l ++ [a, b] = (l ++ [a]) ++ [b] := by simp
  rw [h, List.getLast?_concat]

/-- Claim C7: the driver-event trace of `synchronization_loop` contains
exactly one `close()` call and ends with it, whatever combination of
completed iterations and stop reason (normal exhaustion, `KeyboardInterrupt`,
or another error) occurred; and `close` restores asynchronous free-running
mode, issues a destroy call for every value of `sumo2carla_ids` (in CARLA)
and every value of `carla2sumo_ids` (in SUMO), and closes both adapters. -/
theorem claim_C7_shutdown_teardown (step : ℚ) (run : LoopRun)
    (cur : CarlaSettings) (st : SyncState) :
    (loopTrace step run).count LoopEvent.closeCall = 1 ∧
    (loopTrace step run).getLast? = some LoopEvent.closeCall ∧
    (close cur st).applied_settings.synchronous_mode = false ∧
    (close cur st).applied_settings.fixed_delta_seconds = none ∧
    (close cur st).carla_destroy_calls = alValues st.sumo2carla_ids ∧
    (close cur st).sumo_destroy_calls = alValues st.carla2sumo_ids ∧
    (close cur st).carla_closed = true ∧
    (close cur st).sumo_closed = true := by
  refine ⟨?_, ?_, rfl, rfl, rfl, rfl, rfl, rfl⟩
  · rw [loopTrace, List.count_append, List.count_append, fold_count_close]
    cases run.ending <;> simp [List.count_cons]
  · rw [loopTrace]
    exact getLast_append_pair _ _ _

/-- Claim C9: after each completed loop iteration the driver sleeps for
`max(0, stepLength - elapsed)` — a single sleep of `stepLength - elapsed`
when under budget and no sleep call at all otherwise — and an over-budget
iteration never loses its simulation step: every completed iteration
contributes exactly one tick step to the trace regardless of its elapsed
time. -/
theorem claim_C9_realtime_pacing (step elapsed : ℚ) :
    (sleepCalls step elapsed).sum = max 0 (step - elapsed) ∧
    (elapsed < step → sleepCalls step elapsed = [step - elapsed]) ∧
    (step ≤ elapsed → sleepCalls step elapsed = []) ∧
    (∀ run : LoopRun, (loopTrace step run).count LoopEvent.tickStep
      = run.iters.length) := by
  refine ⟨?_, ?_, ?_, ?_⟩
  · rw [sleepCalls]
    split
    · rename_i h
      simp only [List.sum_cons, List.sum_nil, add_zero]
      exact (max_eq_right (by linarith)).symm
    · rename_i h
      simp only [List.sum_nil]
      have hx : step - elapsed ≤ 0 := by linarith [le_of_not_lt h]
      exact (max_eq_left hx).symm
  · intro h
    rw [sleepCalls, if_pos h]
  · intro h
    rw [sleepCalls, if_neg (not_lt.mpr h)]
  · intro run
    rw [loopTrace, List.count_append, List.count_append, fold_count_tick]
    cases run.ending <;> simp [List.count_cons]

/-- Claim C9 witness: with a 1-second budget, a half-second iteration
sleeps exactly half a second, and a two-second iteration does not sleep. -/
theorem claim_C9_witness :
    sleepCalls 1 (1 / 2) = [1 - 1 / 2] ∧ sleepCalls 1 2 = [] := by
  exact ⟨(claim_C9_realtime_pacing 1 (1 / 2)).2.1 (by norm_num),
    (claim_C9_realtime_pacing 1 2).2.2.1 (by norm_num)⟩


/-- Claim C8: translation rejection is permanent — if an entity's view
always translates to "no equivalent type", then across any number of
ticks it never acquires a mapping entry (in either direction), and on any
tick in which the sumo→carla pass considers it, it is unsubscribed. -/
theorem claim_C8_translation_rejection_permanent (cfg : SyncConfig)
    (a c : ActorId) :
    (∀ (envs : List TickEnv) (st st' : SyncState),
      (∀ env ∈ envs, ∀ actor, env.sumo_get_actor a = .ok actor →
        env.get_carla_blueprint actor cfg.sync_vehicle_color = none) →
      runTicks cfg envs st = .ok st' →
      alContains st.sumo2carla_ids a = false →
      alContains st'.sumo2carla_ids a = false) ∧
    (∀ (env : TickEnv) (st st1 : SyncState) (e1 : SumoPassEff) (actor : ActorView),
      env.sumo_get_actor a = .ok actor →
      env.get_carla_blueprint actor cfg.sync_vehicle_color = none →
      a ∈ sumoConsidered env st →
      sumoToCarlaPass cfg env st = .ok (st1, e1) →
      a ∈ e1.sumo_unsubs) ∧
    (∀ (envs : List TickEnv) (st st' : SyncState),
      (∀ env ∈ envs, ∀ actor, env.carla_get_actor c = .ok actor →
        env.get_sumo_vtype actor = none) →
      runTicks cfg envs st = .ok st' →
      alContains st.carla2sumo_ids c = false →
      alContains st'.carla2sumo_ids c = false) := by
  refine ⟨fun envs st st' h1 h2 h3 => runTicks_preserves_no_s2c h1 h2 h3, ?_,
    fun envs st st' h1 h2 h3 => runTicks_preserves_no_c2s h1 h2 h3⟩
  intro env st st1 e1 actor hga hbp hmem hpass
  obtain ⟨rs, ups, hs, hu, hst1, he1⟩ := sumoToCarlaPass_inv hpass
  rw [he1]
  show a ∈ rs.unsubs
  exact sumoSpawnLoop_unsub hga hbp hmem hs

/-- Claim C8 witness: with a translator that never finds an equivalent
type, running a tick leaves sumo actor 1 unmapped and unsubscribed. -/
theorem claim_C8_witness :
    runTicks cfgW [envNoType] stW = .ok ⟨[], [(50, 5)]⟩ ∧
    alContains (⟨[], [(50, 5)]⟩ : SyncState).sumo2carla_ids 1 = false ∧
    sumoToCarlaPass cfgW envNoType stW =
      .ok (⟨[], [(50, 5)]⟩, ⟨[1], [1], [], [], [], [(100, 2)]⟩) ∧
    1 ∈ (⟨[1], [1], [], [], [], [(100, 2)]⟩ : SumoPassEff).sumo_unsubs := by
  have hrun : runTicks cfgW [envNoType] stW = .ok ⟨[], [(50, 5)]⟩ := by decide
  have hpass : sumoToCarlaPass cfgW envNoType stW =
      .ok (⟨[], [(50, 5)]⟩, ⟨[1], [1], [], [], [], [(100, 2)]⟩) := by decide
  obtain ⟨cA, cB, cC⟩ := claim_C8_translation_rejection_permanent cfgW 1 40
  refine ⟨hrun, cA [envNoType] stW _ ?_ hrun rfl, hpass,
    cB envNoType stW _ _ actorS rfl rfl (by decide) hpass⟩
  intro env henv actor hga
  obtain rfl := List.mem_singleton.mp henv
  rfl

/-- Claim C10: an id reported both spawned and destroyed in the same tick
first has its mirror created (a pair recorded and a spawn call emitted by
the spawn step), and then, in the same half-pass, the mirror receives a
destroy call and the pair is removed — the tick ends with no mapping
entry for that id.  Both half-passes are covered. -/
theorem claim_C10_spawn_then_destroy :
    (∀ (cfg : SyncConfig) (env : TickEnv) (st st1 st2 : SyncState)
        (e1 : SumoPassEff) (e2 : CarlaPassEff) (rs : SumoSpawnRes)
        (a : ActorId) (actor : ActorView) (bp : Blueprint),
      env.sumo_spawned_actors.Nodup →
      (alKeys st.sumo2carla_ids).Nodup →
      a ∈ env.sumo_spawned_actors →
      a ∉ alValues st.carla2sumo_ids →
      env.sumo_get_actor a = .ok actor →
      env.get_carla_blueprint actor cfg.sync_vehicle_color = some bp →
      ¬ env.carla_spawn_actor bp (env.get_carla_transform actor.pose actor.extent)
        = INVALID_ACTOR_ID →
      a ∈ env.sumo_destroyed_actors →
      sumoSpawnLoop cfg env (sumoConsidered env st) st.sumo2carla_ids = .ok rs →
      sumoToCarlaPass cfg env st = .ok (st1, e1) →
      carlaToSumoPass cfg env st1 = .ok (st2, e2) →
      alLookup rs.s2c a = some (env.carla_spawn_actor bp
        (env.get_carla_transform actor.pose actor.extent)) ∧
      (bp, env.get_carla_transform actor.pose actor.extent) ∈ e1.carla_spawn_calls ∧
      env.carla_spawn_actor bp (env.get_carla_transform actor.pose actor.extent)
        ∈ e1.carla_destroy_calls ∧
      alContains st1.sumo2carla_ids a = false ∧
      alContains st2.sumo2carla_ids a = false) ∧
    (∀ (cfg : SyncConfig) (env : TickEnv) (st1 st2 : SyncState)
        (e2 : CarlaPassEff) (rs2 : CarlaSpawnRes)
        (c : ActorId) (actor : ActorView) (t : VType),
      env.carla_spawned_actors.Nodup →
      (alKeys st1.carla2sumo_ids).Nodup →
      c ∈ env.carla_spawned_actors →
      c ∉ alValues st1.sumo2carla_ids →
      env.carla_get_actor c = .ok actor →
      env.get_sumo_vtype actor = some t →
      ¬ env.sumo_spawn_actor t
          (if cfg.sync_vehicle_color then actor.color_attr else none)
        = INVALID_ACTOR_ID →
      c ∈ env.carla_destroyed_actors →
      carlaSpawnLoop cfg env (carlaConsidered env st1) st1.carla2sumo_ids = .ok rs2 →
      carlaToSumoPass cfg env st1 = .ok (st2, e2) →
      alLookup rs2.c2s c = some (env.sumo_spawn_actor t
        (if cfg.sync_vehicle_color then actor.color_attr else none)) ∧
      (t, if cfg.sync_vehicle_color then actor.color_attr else none)
        ∈ e2.sumo_spawn_calls ∧
      env.sumo_spawn_actor t (if cfg.sync_vehicle_color then actor.color_attr else none)
        ∈ e2.sumo_destroy_calls ∧
      alContains st2.carla2sumo_ids c = false) := by
  constructor
  · intro cfg env st st1 st2 e1 e2 rs a actor bp hndsp hndk hsp hval hga hbp hinv
      hde hs h1 h2
    have hcont : (alValues st.carla2sumo_ids).contains a = false := by
      cases hc : (alValues st.carla2sumo_ids).contains a
      · rfl
      · exact absurd (List.mem_of_elem_eq_true hc) hval
    have hconsidered : a ∈ sumoConsidered env st := by
      rw [sumoConsidered, List.mem_filter]
      exact ⟨hsp, by rw [hcont]; rfl⟩
    have hndc : (sumoConsidered env st).Nodup := List.Nodup.filter _ hndsp
    obtain ⟨rs', ups, hs', hu, hst1, he1⟩ := sumoToCarlaPass_inv h1
    rw [hs] at hs'
    cases hs'
    obtain ⟨rs2', ups2, hs2', hu2, hst2, he2⟩ := carlaToSumoPass_inv h2
    have hnds2c : (alKeys rs.s2c).Nodup := sumoSpawnLoop_keys_nodup hs hndk
    have hlook := sumoSpawnLoop_lookup_spawned hga hbp hinv hndc hconsidered hs
    refine ⟨hlook, ?_, ?_, ?_, ?_⟩
    · rw [he1]
      exact sumoSpawnLoop_spawncall hga hbp hconsidered hs
    · rw [he1]
      exact destroyLoop_calls hde hlook
    · rw [hst1]
      exact destroyLoop_removes hde hnds2c
    · rw [hst2]
      show alContains st1.sumo2carla_ids a = false
      rw [hst1]
      exact destroyLoop_removes hde hnds2c
  · intro cfg env st1 st2 e2 rs2 c actor t hndsp hndk hsp hval hga hvt hinv
      hde hs2 h2
    have hcont : (alValues st1.sumo2carla_ids).contains c = false := by
      cases hc : (alValues st1.sumo2carla_ids).contains c
      · rfl
      · exact absurd (List.mem_of_elem_eq_true hc) hval
    have hconsidered : c ∈ carlaConsidered env st1 := by
      rw [carlaConsidered, List.mem_filter]
      exact ⟨hsp, by rw [hcont]; rfl⟩
    have hndc : (carlaConsidered env st1).Nodup := List.Nodup.filter _ hndsp
    obtain ⟨rs2', ups2, hs2', hu2, hst2, he2⟩ := carlaToSumoPass_inv h2
    rw [hs2] at hs2'
    cases hs2'
    have hndc2s : (alKeys rs2.c2s).Nodup := carlaSpawnLoop_keys_nodup hs2 hndk
    have hlook := carlaSpawnLoop_lookup_spawned hga hvt hinv hndc hconsidered hs2
    refine ⟨hlook, ?_, ?_, ?_⟩
    · rw [he2]
      exact carlaSpawnLoop_spawncall hga hvt hconsidered hs2
    · rw [he2]
      exact destroyLoop_calls hde hlook
    · rw [hst2]
      exact destroyLoop_removes hde hndc2s

/-- Claim C10 witness: sumo actor 1 is both spawned and destroyed in the
same tick; its mirror 21 is created and recorded, then destroyed in the
same half-pass, and the tick ends with no entry for 1. -/
theorem claim_C10_witness :
    sumoSpawnLoop cfgW envSpawnDestroy (sumoConsidered envSpawnDestroy stW)
      stW.sumo2carla_ids = .ok ⟨[(1, 21)], [1], [], [(11, 12)]⟩ ∧
    alLookup ([(1, 21)] : List (ActorId × ActorId)) 1 = some 21 ∧
    21 ∈ (⟨[1], [], [(11, 12)], [21], [], [(100, 2)]⟩
      : SumoPassEff).carla_destroy_calls ∧
    alContains (⟨[], [(50, 5)]⟩ : SyncState).sumo2carla_ids 1 = false ∧
    alContains (⟨[], [(50, 5), (40, 7)]⟩ : SyncState).sumo2carla_ids 1 = false := by
  have hs : sumoSpawnLoop cfgW envSpawnDestroy (sumoConsidered envSpawnDestroy stW)
      stW.sumo2carla_ids = .ok ⟨[(1, 21)], [1], [], [(11, 12)]⟩ := by decide
  have h1 : sumoToCarlaPass cfgW envSpawnDestroy stW =
      .ok (⟨[], [(50, 5)]⟩, ⟨[1], [], [(11, 12)], [21], [], [(100, 2)]⟩) := by decide
  have h2 : carlaToSumoPass cfgW envSpawnDestroy ⟨[], [(50, 5)]⟩ =
      .ok (⟨[], [(50, 5), (40, 7)]⟩,
        ⟨[(12, none)], [7], [], [(5, 22, some 12), (7, 22, some 12)], []⟩) := by decide
  obtain ⟨l1, l2, l3, l4, l5⟩ := (claim_C10_spawn_then_destroy).1 cfgW envSpawnDestroy
    stW _ _ _ _ _ 1 actorS 11 (by decide) (by decide) (by decide) (by decide)
    (by decide) (by decide) (by decide) (by decide) hs h1 h2
  exact ⟨hs, l1, l3, l4, l5⟩

end LimSimSync